import Mathlib

/-!
Verification of the mortgage scenario comparison calculator.

The amortization engine of the source (`calculateMortgage`,
`generateAmortizationSchedule`, `calculateComparison`) is embedded over `ℚ`:
every arithmetic operation performed by the source on these code paths is a
field operation or a power with a natural exponent, so the rational embedding
mirrors the source exactly (with the usual convention that division by zero
yields zero, which we make explicit wherever it matters).
-/

namespace MortgageCalc

set_option maxRecDepth 200000

/-- The scenario record (`ScenarioState` in the source), numeric fields as `ℚ`.
`amortizationPeriod` and `term` are year counts, kept as `ℕ`. -/
structure Scenario where
  purchasePrice : ℚ
  downPayment : ℚ
  downPaymentType : String
  interestRate : ℚ
  amortizationPeriod : ℕ
  term : ℕ
  paymentFrequency : String
  extraPayment : ℚ
  paymentIncrease : ℚ
  annualPrepayment : ℚ
deriving DecidableEq

/-- One year of the amortization schedule (`AmortizationItem` in the source). -/
structure AmortizationItem where
  year : ℕ
  principalPaid : ℚ
  interestPaid : ℚ
  extraPayments : ℚ
  endingBalance : ℚ
deriving DecidableEq

/-- The result record returned by `calculateMortgage` (`MortgageResult`). -/
structure MortgageResult where
  monthlyPayment : ℚ
  totalMortgage : ℚ
  totalInterestTerm : ℚ
  totalInterestLifetime : ℚ
  balanceAtEndOfTerm : ℚ
  effectiveAmortization : ℚ
  amortizationSchedule : List AmortizationItem
deriving DecidableEq

/-- Payments per year for each frequency, from the `PAYMENT_FREQUENCIES` table;
an unknown value falls back to the first entry (monthly), mirroring the
`?? PAYMENT_FREQUENCIES[0]` in the source. -/
def paymentsPerYear (frequency : String) : ℕ :=
  if frequency = "monthly" then 12
  else if frequency = "biweekly" then 26
  else if frequency = "accelerated_biweekly" then 26
  else if frequency = "weekly" then 52
  else if frequency = "accelerated_weekly" then 52
  else 12

/-- Mutable state of `generateAmortizationSchedule`: loop-carried variables plus
the per-year accumulators (which are reset at the start of each year). -/
structure PayState where
  balance : ℚ
  totalInterestPaid : ℚ
  totalInterestPaidOverTerm : ℚ
  balanceAtEndOfTerm : ℚ
  lastPaymentNumber : ℕ
  yearlyPrincipalPaid : ℚ
  yearlyInterestPaid : ℚ
  yearlyExtraPayments : ℚ
  yearlySchedule : List AmortizationItem
deriving DecidableEq

/-- The balance update performed by one payment of the inner loop (the same
arithmetic as `payStep`, balance component only). -/
def balStep (rpp adjP extraP b : ℚ) : ℚ :=
  let interestForPayment := b * rpp
  let mainPrincipal := min (adjP - interestForPayment) b
  let extraPrincipalPaid := if 0 < extraP then min extraP (b - mainPrincipal) else 0
  b - (mainPrincipal + extraPrincipalPaid)

/-- The body of the inner payment loop (source lines 287-310): interest,
clamped principal, optional extra payment, balance update, accumulator updates,
and the term-end snapshot taken when `year = term` and `i = paymentsPerYear`. -/
def payStep (rpp adjP extraP : ℚ) (term ppy year i : ℕ) (s : PayState) : PayState :=
  let interestForPayment := s.balance * rpp
  let mainPrincipal := min (adjP - interestForPayment) s.balance
  let extraPrincipalPaid := if 0 < extraP then min extraP (s.balance - mainPrincipal) else 0
  let principalForPayment := mainPrincipal + extraPrincipalPaid
  { s with
    balance := s.balance - principalForPayment
    yearlyPrincipalPaid := s.yearlyPrincipalPaid + principalForPayment
    yearlyInterestPaid := s.yearlyInterestPaid + interestForPayment
    totalInterestPaid := s.totalInterestPaid + interestForPayment
    yearlyExtraPayments := s.yearlyExtraPayments + extraPrincipalPaid
    balanceAtEndOfTerm :=
      if year = term ∧ i = ppy then s.balance - principalForPayment
      else s.balanceAtEndOfTerm
    totalInterestPaidOverTerm :=
      if year = term ∧ i = ppy then s.totalInterestPaid + interestForPayment
      else s.totalInterestPaidOverTerm }

/-- The inner payment loop `for (i = 1; i <= paymentsPerYear; i++)`.
As in the source, `lastPaymentNumber` is incremented before the
`balance <= 0` break is checked, so the iteration that observes an exhausted
balance still bumps the counter. The first `ℕ` argument is the remaining
iteration count, the second the current payment index `i`. -/
def innerLoop (rpp adjP extraP : ℚ) (term ppy year : ℕ) : ℕ → ℕ → PayState → PayState
  | 0, _, s => s
  | rem + 1, i, s =>
    if s.balance ≤ 0 then { s with lastPaymentNumber := s.lastPaymentNumber + 1 }
    else
      innerLoop rpp adjP extraP term ppy year rem (i + 1)
        (payStep rpp adjP extraP term ppy year i
          { s with lastPaymentNumber := s.lastPaymentNumber + 1 })

/-- The annual lump-sum prepayment applied after the inner loop
(source lines 314-322): `min(principal * annualPrepayment/100, balance)`,
only when `annualPrepayment > 0` and `balance > 0`. -/
def applyAnnualPrepayment (principal annualPrepayment : ℚ) (s : PayState) : PayState :=
  if 0 < annualPrepayment ∧ 0 < s.balance then
    let amt := min (principal * (annualPrepayment / 100)) s.balance
    { s with
      balance := s.balance - amt
      yearlyPrincipalPaid := s.yearlyPrincipalPaid + amt
      yearlyExtraPayments := s.yearlyExtraPayments + amt }
  else s

/-- Append the completed year's totals to the schedule (source lines 325-331). -/
def pushYear (year : ℕ) (s : PayState) : PayState :=
  { s with
    yearlySchedule := s.yearlySchedule ++
      [{ year := year, principalPaid := s.yearlyPrincipalPaid,
         interestPaid := s.yearlyInterestPaid,
         extraPayments := s.yearlyExtraPayments, endingBalance := s.balance }] }

/-- Reset the per-year accumulators at the start of a year (source lines 277-279). -/
def resetYear (s : PayState) : PayState :=
  { s with yearlyPrincipalPaid := 0, yearlyInterestPaid := 0, yearlyExtraPayments := 0 }

/-- The outer year loop `for (year = 1; year <= amortizationYears; year++)`,
stopping early when the balance is exhausted (source lines 276-334). The first
`ℕ` argument is the number of years remaining, the second the current year. -/
def yearLoop (principal rpp adjP extraP annualPrepayment : ℚ) (term ppy : ℕ) :
    ℕ → ℕ → PayState → PayState
  | 0, _, s => s
  | rem + 1, year, s =>
    let s3 :=
      pushYear year
        (applyAnnualPrepayment principal annualPrepayment
          (innerLoop rpp adjP extraP term ppy year ppy 1 (resetYear s)))
    if s3.balance ≤ 0 then s3
    else yearLoop principal rpp adjP extraP annualPrepayment term ppy rem (year + 1) s3

/-- Initial loop state (source lines 265-270). -/
def initState (principal : ℚ) : PayState :=
  { balance := principal, totalInterestPaid := 0, totalInterestPaidOverTerm := 0
    balanceAtEndOfTerm := 0, lastPaymentNumber := 0
    yearlyPrincipalPaid := 0, yearlyInterestPaid := 0, yearlyExtraPayments := 0
    yearlySchedule := [] }

/-- Return value of `generateAmortizationSchedule` (source lines 339-345). -/
structure ScheduleResult where
  yearlySchedule : List AmortizationItem
  totalInterestPaid : ℚ
  totalInterestPaidOverTerm : ℚ
  balanceAtEndOfTerm : ℚ
  effectiveAmortizationYears : ℚ
deriving DecidableEq

/-- `generateAmortizationSchedule` (source lines 253-346). -/
def generateAmortizationSchedule (principal annualInterestRate : ℚ)
    (amortizationYears : ℕ) (paymentAmount : ℚ) (ppy : ℕ) (term : ℕ)
    (extraPayment paymentIncrease annualPrepayment : ℚ) : ScheduleResult :=
  let interestRatePerPayment := (annualInterestRate / 100) / (ppy : ℚ)
  let adjustedPayment := paymentAmount * (1 + paymentIncrease / 100)
  let final := yearLoop principal interestRatePerPayment adjustedPayment extraPayment
    annualPrepayment term ppy amortizationYears 1 (initState principal)
  { yearlySchedule := final.yearlySchedule
    totalInterestPaid := final.totalInterestPaid
    totalInterestPaidOverTerm := final.totalInterestPaidOverTerm
    balanceAtEndOfTerm := final.balanceAtEndOfTerm
    effectiveAmortizationYears := (final.lastPaymentNumber : ℚ) / (ppy : ℚ) }

/-- Down payment in dollars (source lines 376-381). -/
def downPaymentAmount (s : Scenario) : ℚ :=
  if s.downPaymentType = "amount" then s.downPayment
  else s.purchasePrice * (s.downPayment / 100)

/-- The financed principal (source line 383). -/
def mortgageAmount (s : Scenario) : ℚ :=
  s.purchasePrice - downPaymentAmount s

/-- Total number of scheduled payments (source line 394). -/
def totalPayments (s : Scenario) : ℕ :=
  s.amortizationPeriod * paymentsPerYear s.paymentFrequency

/-- The per-period payment amount computed by `calculateMortgage`
(source lines 396-417): zero-rate fallback, annuity formula, and the
accelerated-frequency override that replaces the payment with the
monthly-equivalent annuity payment divided by 2 or 4. -/
def paymentAmount (s : Scenario) : ℚ :=
  let P := mortgageAmount s
  let ppy := paymentsPerYear s.paymentFrequency
  let annualInterestRate := s.interestRate / 100
  let r := annualInterestRate / (ppy : ℚ)
  let n := s.amortizationPeriod * ppy
  let base :=
    if s.interestRate = 0 then P / (n : ℚ)
    else P * (r * (1 + r) ^ n) / ((1 + r) ^ n - 1)
  if s.paymentFrequency = "accelerated_biweekly" then
    P * (annualInterestRate / 12 * (1 + annualInterestRate / 12) ^ (s.amortizationPeriod * 12)) /
      ((1 + annualInterestRate / 12) ^ (s.amortizationPeriod * 12) - 1) / 2
  else if s.paymentFrequency = "accelerated_weekly" then
    P * (annualInterestRate / 12 * (1 + annualInterestRate / 12) ^ (s.amortizationPeriod * 12)) /
      ((1 + annualInterestRate / 12) ^ (s.amortizationPeriod * 12) - 1) / 4
  else base

/-- `calculateMortgage` (source lines 374-447). -/
def calculateMortgage (s : Scenario) : MortgageResult :=
  let P := mortgageAmount s
  let ppy := paymentsPerYear s.paymentFrequency
  let pay := paymentAmount s
  let monthlyPayment :=
    if s.paymentFrequency = "monthly" then pay else pay * (ppy : ℚ) / 12
  let sched := generateAmortizationSchedule P s.interestRate s.amortizationPeriod pay ppy
    s.term s.extraPayment s.paymentIncrease s.annualPrepayment
  { monthlyPayment := monthlyPayment
    totalMortgage := P
    totalInterestTerm := sched.totalInterestPaidOverTerm
    totalInterestLifetime := sched.totalInterestPaid
    balanceAtEndOfTerm := sched.balanceAtEndOfTerm
    effectiveAmortization := sched.effectiveAmortizationYears
    amortizationSchedule := sched.yearlySchedule }

/-- The `differences` record computed by `calculateComparison` (source lines 357-363). -/
structure ComparisonDifferences where
  monthlyPayment : ℚ
  totalInterestTerm : ℚ
  totalInterestLifetime : ℚ
  balanceAtEndOfTerm : ℚ
  timeShaved : ℚ
deriving DecidableEq

/-- The comparison record assembled by `calculateComparison` (source lines 349-371). -/
structure ComparisonResult where
  scenarioA : MortgageResult
  scenarioB : MortgageResult
  differences : ComparisonDifferences
deriving DecidableEq

/-- `calculateComparison` (source lines 349-371): run `calculateMortgage` on both
scenarios and take pairwise field differences. -/
def calculateComparison (sA sB : Scenario) : ComparisonResult :=
  let resultA := calculateMortgage sA
  let resultB := calculateMortgage sB
  { scenarioA := resultA
    scenarioB := resultB
    differences :=
      { monthlyPayment := resultB.monthlyPayment - resultA.monthlyPayment
        totalInterestTerm := resultB.totalInterestTerm - resultA.totalInterestTerm
        totalInterestLifetime := resultB.totalInterestLifetime - resultA.totalInterestLifetime
        balanceAtEndOfTerm := resultB.balanceAtEndOfTerm - resultA.balanceAtEndOfTerm
        timeShaved := resultA.effectiveAmortization - resultB.effectiveAmortization } }

/-!
Reference trajectory. The loop above interleaves the balance dynamics with
bookkeeping (payment counter bumped before the break check, term-end snapshot,
schedule construction). For stating the claims about "payments actually
processed" and "the values at the moment the term's last payment is executed"
we use a reference trajectory that follows the spec's description: the same
balance/interest dynamics, but the counter counts exactly the payments at
which interest is charged and principal is reduced, and years past the payoff
leave the state unchanged.
-/

/-- Reference trajectory state: balance, cumulative interest, and the number of
payments actually processed. -/
structure RefState where
  balance : ℚ
  interest : ℚ
  processed : ℕ
deriving DecidableEq

/-- One processed payment of the reference trajectory. -/
def refPay (rpp adjP extraP : ℚ) (t : RefState) : RefState :=
  { balance := balStep rpp adjP extraP t.balance
    interest := t.interest + t.balance * rpp
    processed := t.processed + 1 }

/-- The payments of one year in the reference trajectory: stop (without
counting) as soon as the balance is exhausted. -/
def refInner (rpp adjP extraP : ℚ) : ℕ → RefState → RefState
  | 0, t => t
  | rem + 1, t =>
    if t.balance ≤ 0 then t else refInner rpp adjP extraP rem (refPay rpp adjP extraP t)

/-- The annual lump-sum prepayment on the reference trajectory. -/
def refPrepay (principal annualPrepayment : ℚ) (t : RefState) : RefState :=
  if 0 < annualPrepayment ∧ 0 < t.balance then
    { t with balance := t.balance - min (principal * (annualPrepayment / 100)) t.balance }
  else t

/-- One full year of the reference trajectory. -/
def refYear (principal rpp adjP extraP annualPrepayment : ℚ) (ppy : ℕ)
    (t : RefState) : RefState :=
  refPrepay principal annualPrepayment (refInner rpp adjP extraP ppy t)

/-- Several years of the reference trajectory. A year starting with an
exhausted balance changes nothing. -/
def refYears (principal rpp adjP extraP annualPrepayment : ℚ) (ppy : ℕ) :
    ℕ → RefState → RefState
  | 0, t => t
  | rem + 1, t =>
    refYears principal rpp adjP extraP annualPrepayment ppy rem
      (refYear principal rpp adjP extraP annualPrepayment ppy t)

/-- Periodic interest rate of a scenario, as used by the schedule loop. -/
def scenarioRatePerPayment (s : Scenario) : ℚ :=
  (s.interestRate / 100) / (paymentsPerYear s.paymentFrequency : ℚ)

/-- The adjusted per-period payment (payment increase applied), as used by the
schedule loop. -/
def scenarioAdjustedPayment (s : Scenario) : ℚ :=
  paymentAmount s * (1 + s.paymentIncrease / 100)

/-- The number of payments actually processed by the schedule of a scenario
(payments at which interest is charged and principal is reduced), following
the spec's description of effective amortization. -/
def processedPayments (s : Scenario) : ℕ :=
  (refYears (mortgageAmount s) (scenarioRatePerPayment s) (scenarioAdjustedPayment s)
      s.extraPayment s.annualPrepayment (paymentsPerYear s.paymentFrequency)
      s.amortizationPeriod
      { balance := mortgageAmount s, interest := 0, processed := 0 }).processed

/-- The balance and cumulative interest at the moment the last payment of year
`term` is executed: `term - 1` full years (annual prepayments included),
followed by the payments of year `term` (before that year's prepayment). -/
def termMomentState (s : Scenario) : RefState :=
  refInner (scenarioRatePerPayment s) (scenarioAdjustedPayment s) s.extraPayment
    (paymentsPerYear s.paymentFrequency)
    (refYears (mortgageAmount s) (scenarioRatePerPayment s) (scenarioAdjustedPayment s)
      s.extraPayment s.annualPrepayment (paymentsPerYear s.paymentFrequency)
      (s.term - 1)
      { balance := mortgageAmount s, interest := 0, processed := 0 })

/-!
Spec-side formulas, used to compare the source's computation against the
spec's wording.
-/

/-- The spec's "standard monthly payment": annuity formula at periodic rate
`annualRate/12` with `n = amortizationPeriod * 12` payments. -/
def monthlyAnnuityPayment (s : Scenario) : ℚ :=
  mortgageAmount s *
      (s.interestRate / 100 / 12 *
        (1 + s.interestRate / 100 / 12) ^ (s.amortizationPeriod * 12)) /
    ((1 + s.interestRate / 100 / 12) ^ (s.amortizationPeriod * 12) - 1)

/-- The spec's annuity formula at the scenario's true periodic rate and payment
count: `P * r(1+r)^n / ((1+r)^n - 1)` with `r` the periodic rate and
`n = amortizationPeriod * paymentsPerYear`. -/
def periodicAnnuityPayment (s : Scenario) : ℚ :=
  mortgageAmount s *
      (scenarioRatePerPayment s *
        (1 + scenarioRatePerPayment s) ^ totalPayments s) /
    ((1 + scenarioRatePerPayment s) ^ totalPayments s - 1)

/-- The divisor of the accelerated-frequency monthly-equivalent computation
(source lines 410 and 415): `(1 + annualRate/12)^(years*12) - 1`. -/
def acceleratedMonthlyDivisor (s : Scenario) : ℚ :=
  (1 + s.interestRate / 100 / 12) ^ (s.amortizationPeriod * 12) - 1

/-- Well-formed numeric input in the sense of the spec: non-negative,
range-bounded values, with the down payment no larger than the purchase price
(as an amount) or than 100 (as a percentage). -/
def WellFormed (s : Scenario) : Prop :=
  0 ≤ s.purchasePrice ∧ 0 ≤ s.downPayment ∧ 0 ≤ s.interestRate ∧
    0 ≤ s.extraPayment ∧ 0 ≤ s.paymentIncrease ∧ 0 ≤ s.annualPrepayment ∧
    (s.downPaymentType = "amount" → s.downPayment ≤ s.purchasePrice) ∧
    (¬s.downPaymentType = "amount" → s.downPayment ≤ 100)

instance (s : Scenario) : Decidable (WellFormed s) := by
  unfold WellFormed; infer_instance

/-- The schedule's year-over-year balance chain: starting from `prev`, each
item's ending balance is the previous balance minus that item's
`principalPaid`. -/
def chainFrom (prev : ℚ) : List AmortizationItem → Prop
  | [] => True
  | a :: rest => a.endingBalance = prev - a.principalPaid ∧ chainFrom a.endingBalance rest

/-- The ending balance of the last schedule item, or `prev` for an empty
schedule. -/
def lastBalance (prev : ℚ) : List AmortizationItem → ℚ
  | [] => prev
  | a :: rest => lastBalance a.endingBalance rest

/-! Basic equations and projections of the loop bodies. -/

theorem payStep_balance (rpp adjP e : ℚ) (term ppy year i : ℕ) (s : PayState) :
    (payStep rpp adjP e term ppy year i s).balance = balStep rpp adjP e s.balance := rfl

theorem payStep_totalInterestPaid (rpp adjP e : ℚ) (term ppy year i : ℕ) (s : PayState) :
    (payStep rpp adjP e term ppy year i s).totalInterestPaid =
      s.totalInterestPaid + s.balance * rpp := rfl

theorem payStep_lastPaymentNumber (rpp adjP e : ℚ) (term ppy year i : ℕ) (s : PayState) :
    (payStep rpp adjP e term ppy year i s).lastPaymentNumber = s.lastPaymentNumber := rfl

theorem payStep_yearlySchedule (rpp adjP e : ℚ) (term ppy year i : ℕ) (s : PayState) :
    (payStep rpp adjP e term ppy year i s).yearlySchedule = s.yearlySchedule := rfl

theorem payStep_sum (rpp adjP e : ℚ) (term ppy year i : ℕ) (s : PayState) :
    (payStep rpp adjP e term ppy year i s).balance +
        (payStep rpp adjP e term ppy year i s).yearlyPrincipalPaid =
      s.balance + s.yearlyPrincipalPaid := by
  simp only [payStep]; ring

theorem payStep_snapshot_of_ne (rpp adjP e : ℚ) (term ppy year i : ℕ) (s : PayState)
    (h : ¬(year = term ∧ i = ppy)) :
    (payStep rpp adjP e term ppy year i s).balanceAtEndOfTerm = s.balanceAtEndOfTerm ∧
      (payStep rpp adjP e term ppy year i s).totalInterestPaidOverTerm =
        s.totalInterestPaidOverTerm := by
  refine ⟨?_, ?_⟩ <;> simp [payStep, h]

theorem payStep_snapshot_of_eq (rpp adjP e : ℚ) (term ppy year i : ℕ) (s : PayState)
    (h : year = term ∧ i = ppy) :
    (payStep rpp adjP e term ppy year i s).balanceAtEndOfTerm =
        (payStep rpp adjP e term ppy year i s).balance ∧
      (payStep rpp adjP e term ppy year i s).totalInterestPaidOverTerm =
        (payStep rpp adjP e term ppy year i s).totalInterestPaid := by
  refine ⟨?_, ?_⟩ <;> simp [payStep, h.1, h.2]

theorem innerLoop_zero (rpp adjP e : ℚ) (term ppy year i : ℕ) (s : PayState) :
    innerLoop rpp adjP e term ppy year 0 i s = s := rfl

theorem innerLoop_succ (rpp adjP e : ℚ) (term ppy year rem i : ℕ) (s : PayState) :
    innerLoop rpp adjP e term ppy year (rem + 1) i s =
      if s.balance ≤ 0 then { s with lastPaymentNumber := s.lastPaymentNumber + 1 }
      else
        innerLoop rpp adjP e term ppy year rem (i + 1)
          (payStep rpp adjP e term ppy year i
            { s with lastPaymentNumber := s.lastPaymentNumber + 1 }) := rfl

theorem yearLoop_zero (principal rpp adjP e ap : ℚ) (term ppy year : ℕ) (s : PayState) :
    yearLoop principal rpp adjP e ap term ppy 0 year s = s := rfl

theorem yearLoop_succ (principal rpp adjP e ap : ℚ) (term ppy rem year : ℕ) (s : PayState) :
    yearLoop principal rpp adjP e ap term ppy (rem + 1) year s =
      (let s3 :=
        pushYear year
          (applyAnnualPrepayment principal ap
            (innerLoop rpp adjP e term ppy year ppy 1 (resetYear s)))
      if s3.balance ≤ 0 then s3
      else yearLoop principal rpp adjP e ap term ppy rem (year + 1) s3) := rfl

theorem refInner_zero (rpp adjP e : ℚ) (t : RefState) : refInner rpp adjP e 0 t = t := rfl

theorem refInner_succ (rpp adjP e : ℚ) (rem : ℕ) (t : RefState) :
    refInner rpp adjP e (rem + 1) t =
      if t.balance ≤ 0 then t else refInner rpp adjP e rem (refPay rpp adjP e t) := rfl

theorem refYears_zero (principal rpp adjP e ap : ℚ) (ppy : ℕ) (t : RefState) :
    refYears principal rpp adjP e ap ppy 0 t = t := rfl

theorem refYears_succ (principal rpp adjP e ap : ℚ) (ppy rem : ℕ) (t : RefState) :
    refYears principal rpp adjP e ap ppy (rem + 1) t =
      refYears principal rpp adjP e ap ppy rem
        (refYear principal rpp adjP e ap ppy t) := rfl

/-! The closed form of the balance update: for a non-negative extra payment the
new balance is `max (max (b*(1+rpp) - adjP) 0 - extraP) 0`. -/

theorem balStep_eq (rpp adjP e b : ℚ) (he : 0 ≤ e) :
    balStep rpp adjP e b = max (max (b * (1 + rpp) - adjP) 0 - e) 0 := by
  have hy : b * (1 + rpp) = b + b * rpp := by ring
  unfold balStep
  rw [hy]
  simp only [min_def, max_def]
  split_ifs <;> linarith

theorem balStep_nonneg (rpp adjP e b : ℚ) (he : 0 ≤ e) : 0 ≤ balStep rpp adjP e b := by
  rw [balStep_eq rpp adjP e b he]; exact le_max_right _ _

theorem balStep_mono (rpp adjP e1 e2 b1 b2 : ℚ) (hr : 0 ≤ rpp) (h1 : 0 ≤ e1)
    (h12 : e1 ≤ e2) (hb : b2 ≤ b1) :
    balStep rpp adjP e2 b2 ≤ balStep rpp adjP e1 b1 := by
  rw [balStep_eq rpp adjP e1 b1 h1, balStep_eq rpp adjP e2 b2 (h1.trans h12)]
  refine max_le_max (sub_le_sub (max_le_max (sub_le_sub_right ?_ adjP) le_rfl) h12) le_rfl
  exact mul_le_mul_of_nonneg_right hb (by linarith)

theorem paymentsPerYear_pos (f : String) : 0 < paymentsPerYear f := by
  unfold paymentsPerYear
  split <;> norm_num
  split <;> norm_num
  split <;> norm_num
  split <;> norm_num
  split <;> norm_num

theorem applyAnnualPrepayment_totalInterestPaid (principal ap : ℚ) (s : PayState) :
    (applyAnnualPrepayment principal ap s).totalInterestPaid = s.totalInterestPaid := by
  unfold applyAnnualPrepayment; split <;> rfl

theorem applyAnnualPrepayment_lastPaymentNumber (principal ap : ℚ) (s : PayState) :
    (applyAnnualPrepayment principal ap s).lastPaymentNumber = s.lastPaymentNumber := by
  unfold applyAnnualPrepayment; split <;> rfl

theorem applyAnnualPrepayment_yearlySchedule (principal ap : ℚ) (s : PayState) :
    (applyAnnualPrepayment principal ap s).yearlySchedule = s.yearlySchedule := by
  unfold applyAnnualPrepayment; split <;> rfl

theorem applyAnnualPrepayment_snapshot (principal ap : ℚ) (s : PayState) :
    (applyAnnualPrepayment principal ap s).balanceAtEndOfTerm = s.balanceAtEndOfTerm ∧
      (applyAnnualPrepayment principal ap s).totalInterestPaidOverTerm =
        s.totalInterestPaidOverTerm := by
  unfold applyAnnualPrepayment; split <;> exact ⟨rfl, rfl⟩

theorem applyAnnualPrepayment_sum (principal ap : ℚ) (s : PayState) :
    (applyAnnualPrepayment principal ap s).balance +
        (applyAnnualPrepayment principal ap s).yearlyPrincipalPaid =
      s.balance + s.yearlyPrincipalPaid := by
  unfold applyAnnualPrepayment; split
  · simp only; ring
  · rfl

/-- The loop state resulting from the whole schedule of a scenario. -/
def scheduleFinal (s : Scenario) : PayState :=
  yearLoop (mortgageAmount s) (scenarioRatePerPayment s) (scenarioAdjustedPayment s)
    s.extraPayment s.annualPrepayment s.term (paymentsPerYear s.paymentFrequency)
    s.amortizationPeriod 1 (initState (mortgageAmount s))

theorem calculateMortgage_totalInterestLifetime (s : Scenario) :
    (calculateMortgage s).totalInterestLifetime = (scheduleFinal s).totalInterestPaid := rfl

theorem calculateMortgage_totalInterestTerm (s : Scenario) :
    (calculateMortgage s).totalInterestTerm = (scheduleFinal s).totalInterestPaidOverTerm := rfl

theorem calculateMortgage_balanceAtEndOfTerm (s : Scenario) :
    (calculateMortgage s).balanceAtEndOfTerm = (scheduleFinal s).balanceAtEndOfTerm := rfl

theorem calculateMortgage_effectiveAmortization (s : Scenario) :
    (calculateMortgage s).effectiveAmortization =
      ((scheduleFinal s).lastPaymentNumber : ℚ) /
        (paymentsPerYear s.paymentFrequency : ℚ) := rfl

theorem calculateMortgage_amortizationSchedule (s : Scenario) :
    (calculateMortgage s).amortizationSchedule = (scheduleFinal s).yearlySchedule := rfl

theorem calculateMortgage_totalMortgage (s : Scenario) :
    (calculateMortgage s).totalMortgage = mortgageAmount s := rfl

theorem calculateMortgage_monthlyPayment (s : Scenario) :
    (calculateMortgage s).monthlyPayment =
      if s.paymentFrequency = "monthly" then paymentAmount s
      else paymentAmount s * (paymentsPerYear s.paymentFrequency : ℚ) / 12 := rfl

/-! With a zero periodic rate, no interest is ever accumulated. -/

theorem innerLoop_interest_rpp_zero (adjP e : ℚ) (term ppy year : ℕ) :
    ∀ rem i (s : PayState),
      (innerLoop 0 adjP e term ppy year rem i s).totalInterestPaid = s.totalInterestPaid := by
  intro rem
  induction rem with
  | zero => intro i s; rfl
  | succ rem ih =>
    intro i s
    rw [innerLoop_succ]
    split
    · rfl
    · rw [ih, payStep_totalInterestPaid]
      simp

theorem yearLoop_interest_rpp_zero (principal adjP e ap : ℚ) (term ppy : ℕ) :
    ∀ rem year (s : PayState),
      (yearLoop principal 0 adjP e ap term ppy rem year s).totalInterestPaid =
        s.totalInterestPaid := by
  intro rem
  induction rem with
  | zero => intro year s; rfl
  | succ rem ih =>
    intro year s
    rw [yearLoop_succ]
    simp only
    split
    · rw [show (pushYear year (applyAnnualPrepayment principal ap
          (innerLoop 0 adjP e term ppy year ppy 1 (resetYear s)))).totalInterestPaid =
            s.totalInterestPaid from ?_]
      show (applyAnnualPrepayment principal ap _).totalInterestPaid = _
      rw [applyAnnualPrepayment_totalInterestPaid, innerLoop_interest_rpp_zero]
      rfl
    · rw [ih]
      show (applyAnnualPrepayment principal ap _).totalInterestPaid = _
      rw [applyAnnualPrepayment_totalInterestPaid, innerLoop_interest_rpp_zero]
      rfl

/-- For the non-accelerated frequencies the override does not fire, and the
payment is the zero-rate fallback or the periodic annuity formula. -/
theorem paymentAmount_nonaccel (s : Scenario)
    (hf : s.paymentFrequency = "monthly" ∨ s.paymentFrequency = "biweekly" ∨
      s.paymentFrequency = "weekly") :
    paymentAmount s =
      if s.interestRate = 0 then mortgageAmount s / (totalPayments s : ℚ)
      else periodicAnnuityPayment s := by
  rcases hf with h | h | h <;>
    simp [paymentAmount, periodicAnnuityPayment, scenarioRatePerPayment, totalPayments, h]

/-! Concrete scenarios used as counterexamples and witnesses. -/

/-- Accelerated bi-weekly scenario with a non-zero rate and a tiny principal of
1, used to exhibit that the override differs from the periodic annuity formula. -/
def exC1 : Scenario :=
  { purchasePrice := 2, downPayment := 1, downPaymentType := "amount"
    interestRate := 1200, amortizationPeriod := 1, term := 1
    paymentFrequency := "accelerated_biweekly"
    extraPayment := 0, paymentIncrease := 0, annualPrepayment := 0 }

/-- Zero-rate accelerated bi-weekly scenario: the accelerated override divides
by `(1+0/12)^n - 1 = 0`. -/
def exC2 : Scenario :=
  { purchasePrice := 1000, downPayment := 0, downPaymentType := "amount"
    interestRate := 0, amortizationPeriod := 5, term := 1
    paymentFrequency := "accelerated_biweekly"
    extraPayment := 0, paymentIncrease := 0, annualPrepayment := 0 }

/-- Non-zero-rate accelerated bi-weekly scenario for the C3 counterexample. -/
def exC3 : Scenario :=
  { purchasePrice := 2, downPayment := 1, downPaymentType := "amount"
    interestRate := 1200, amortizationPeriod := 1, term := 1
    paymentFrequency := "accelerated_biweekly"
    extraPayment := 0, paymentIncrease := 0, annualPrepayment := 0 }

/-- Zero-rate monthly scenario with a large extra payment: the balance is
exhausted at payment 3 of year 1, but the loop bumps its payment counter once
more before noticing. -/
def exC4 : Scenario :=
  { purchasePrice := 1000, downPayment := 0, downPaymentType := "amount"
    interestRate := 0, amortizationPeriod := 2, term := 1
    paymentFrequency := "monthly"
    extraPayment := 400, paymentIncrease := 0, annualPrepayment := 0 }

/-- Zero-rate bi-weekly scenario: the monthly-equivalent display payment times
`amortizationPeriod * paymentsPerYear` overshoots the principal by 26/12. -/
def exC6 : Scenario :=
  { purchasePrice := 1200, downPayment := 0, downPaymentType := "amount"
    interestRate := 0, amortizationPeriod := 1, term := 1
    paymentFrequency := "biweekly"
    extraPayment := 0, paymentIncrease := 0, annualPrepayment := 0 }

/-- Zero-rate accelerated bi-weekly scenario for the C9 counterexample: the
per-period payment degenerates and no principal is ever paid. -/
def exC9 : Scenario :=
  { purchasePrice := 1000, downPayment := 0, downPaymentType := "amount"
    interestRate := 0, amortizationPeriod := 5, term := 1
    paymentFrequency := "accelerated_biweekly"
    extraPayment := 0, paymentIncrease := 0, annualPrepayment := 0 }

/-! Claims C1, C2 and C8, and the counterexamples for C3, C4, C6 and C9. -/

/-- C1: for an accelerated bi-weekly (resp. accelerated weekly) scenario, the
per-period payment used by `calculateMortgage` is the standard monthly annuity
payment (periodic rate `annualRate/12`, `n = amortizationPeriod * 12`) divided
by 2 (resp. 4); and it is not the annuity value at the true periodic rate and
payment count, as witnessed by a concrete scenario. -/
theorem C1_accelerated_override :
    (∀ s : Scenario, s.paymentFrequency = "accelerated_biweekly" →
        paymentAmount s = monthlyAnnuityPayment s / 2) ∧
      (∀ s : Scenario, s.paymentFrequency = "accelerated_weekly" →
        paymentAmount s = monthlyAnnuityPayment s / 4) ∧
      paymentAmount exC1 ≠ periodicAnnuityPayment exC1 := by
  refine ⟨fun s h => ?_, fun s h => ?_, by with_unfolding_all decide⟩
  · simp [paymentAmount, monthlyAnnuityPayment, h]
  · simp [paymentAmount, monthlyAnnuityPayment, h]

/-- C1 witness: the override equality at a concrete accelerated bi-weekly
scenario, obtained from `C1_accelerated_override`. -/
theorem C1_accelerated_override_witness :
    exC1.paymentFrequency = "accelerated_biweekly" ∧
      paymentAmount exC1 = monthlyAnnuityPayment exC1 / 2 :=
  ⟨rfl, C1_accelerated_override.1 exC1 rfl⟩

/-- C2 is a code bug: at interest rate 0 with an accelerated frequency, the
accelerated override divides by `(1 + 0/12)^n - 1 = 0`; in the source's
floating-point semantics the quotient is `0/0 = NaN`, which contaminates every
numeric field of the result, so `calculateMortgage` is not total over
well-formed input. In the rational embedding the division by zero yields 0, so
the per-period payment degenerates to 0 instead of the zero-rate fallback
`principal / n = 1000/130`. -/
theorem C2_zero_rate_accelerated_failure :
    exC2.interestRate = 0 ∧ exC2.paymentFrequency = "accelerated_biweekly" ∧
      acceleratedMonthlyDivisor exC2 = 0 ∧ paymentAmount exC2 = 0 ∧
      (calculateMortgage exC2).totalMortgage = 1000 ∧
      (calculateMortgage exC2).monthlyPayment = 0 := by
  with_unfolding_all decide

/-- C8: the comparison differences are exact pairwise subtractions, B minus A
for the four money fields and `timeShaved = A − B` for effective amortization. -/
theorem C8_differences (sA sB : Scenario) :
    (calculateComparison sA sB).differences.monthlyPayment =
        (calculateMortgage sB).monthlyPayment - (calculateMortgage sA).monthlyPayment ∧
      (calculateComparison sA sB).differences.totalInterestTerm =
        (calculateMortgage sB).totalInterestTerm - (calculateMortgage sA).totalInterestTerm ∧
      (calculateComparison sA sB).differences.totalInterestLifetime =
        (calculateMortgage sB).totalInterestLifetime -
          (calculateMortgage sA).totalInterestLifetime ∧
      (calculateComparison sA sB).differences.balanceAtEndOfTerm =
        (calculateMortgage sB).balanceAtEndOfTerm - (calculateMortgage sA).balanceAtEndOfTerm ∧
      (calculateComparison sA sB).differences.timeShaved =
        (calculateMortgage sA).effectiveAmortization -
          (calculateMortgage sB).effectiveAmortization :=
  ⟨rfl, rfl, rfl, rfl, rfl⟩

/-- C3 counterexample: a scenario with non-zero interest rate whose per-period
payment is not the annuity value at the true periodic rate and payment count
(the accelerated override replaces it). -/
theorem C3_counterexample :
    exC3.interestRate ≠ 0 ∧ paymentAmount exC3 ≠ periodicAnnuityPayment exC3 := by
  with_unfolding_all decide

/-- C4 counterexample: a scenario where the effective amortization reported by
`calculateMortgage` is not the number of payments actually processed divided by
`paymentsPerYear` (the loop counts one extra entered-but-skipped iteration). -/
theorem C4_counterexample :
    (calculateMortgage exC4).effectiveAmortization ≠
      (processedPayments exC4 : ℚ) / (paymentsPerYear exC4.paymentFrequency : ℚ) := by
  with_unfolding_all decide

/-- C6 counterexample: a zero-rate bi-weekly scenario where
`monthlyPayment * amortizationPeriod * paymentsPerYear` is 2600, not the
financed principal 1200 (the display payment is a monthly equivalent, not the
per-period payment). -/
theorem C6_counterexample :
    ¬((calculateMortgage exC6).totalInterestLifetime = 0 ∧
      (calculateMortgage exC6).monthlyPayment * (exC6.amortizationPeriod : ℚ) *
          (paymentsPerYear exC6.paymentFrequency : ℚ) =
        (calculateMortgage exC6).totalMortgage) := by
  with_unfolding_all decide

/-- C9 counterexample: a zero-rate accelerated bi-weekly scenario whose yearly
`principalPaid` entries sum to 0, not to the financed principal 1000 (the
degenerate payment never reduces the balance). -/
theorem C9_counterexample :
    ((calculateMortgage exC9).amortizationSchedule.map (fun a => a.principalPaid)).sum ≠
      (calculateMortgage exC9).totalMortgage := by
  with_unfolding_all decide

/-- Zero-rate monthly scenario used as witness for the amended C3 and C6. -/
def exC3w : Scenario :=
  { purchasePrice := 1200, downPayment := 0, downPaymentType := "amount"
    interestRate := 0, amortizationPeriod := 1, term := 1
    paymentFrequency := "monthly"
    extraPayment := 0, paymentIncrease := 0, annualPrepayment := 0 }

/-- Zero-rate monthly scenario used as witness for the amended C6. -/
def exC6w : Scenario :=
  { purchasePrice := 1200, downPayment := 0, downPaymentType := "amount"
    interestRate := 0, amortizationPeriod := 1, term := 1
    paymentFrequency := "monthly"
    extraPayment := 0, paymentIncrease := 0, annualPrepayment := 0 }

/-- C3 (amended): for the non-accelerated frequencies (monthly, biweekly,
weekly) the per-period payment of `calculateMortgage` is the annuity formula
`P * r(1+r)^n / ((1+r)^n - 1)` at the periodic rate `r` and
`n = amortizationPeriod * paymentsPerYear` when the rate is non-zero, and
`P / n` when the rate is zero. For the accelerated frequencies the override of
C1 replaces this value (see the counterexample). -/
theorem C3_payment_formula (s : Scenario)
    (hf : s.paymentFrequency = "monthly" ∨ s.paymentFrequency = "biweekly" ∨
      s.paymentFrequency = "weekly") :
    (s.interestRate ≠ 0 → paymentAmount s = periodicAnnuityPayment s) ∧
      (s.interestRate = 0 → paymentAmount s = mortgageAmount s / (totalPayments s : ℚ)) := by
  rw [paymentAmount_nonaccel s hf]
  constructor <;> intro hr <;> simp [hr]

/-- C3 witness: the zero-rate branch of the amended claim at a concrete
monthly scenario. -/
theorem C3_payment_formula_witness :
    exC3w.paymentFrequency = "monthly" ∧ exC3w.interestRate = 0 ∧
      paymentAmount exC3w = mortgageAmount exC3w / (totalPayments exC3w : ℚ) :=
  ⟨rfl, rfl, (C3_payment_formula exC3w (Or.inl rfl)).2 rfl⟩

/-- C6 (amended): for a zero-rate scenario with a non-accelerated frequency and
at least one year of amortization, the lifetime interest is zero and the
per-period payment times the total number of payments is exactly the financed
principal; equivalently the monthly-equivalent display payment times
`12 * amortizationPeriod` is the principal. (As stated, with the display
payment multiplied by `paymentsPerYear`, the claim fails for non-monthly
frequencies, and for accelerated frequencies the payment itself degenerates;
see the counterexample.) -/
theorem C6_zero_rate (s : Scenario) (h0 : s.interestRate = 0)
    (hf : s.paymentFrequency = "monthly" ∨ s.paymentFrequency = "biweekly" ∨
      s.paymentFrequency = "weekly")
    (hn : 1 ≤ s.amortizationPeriod) :
    (calculateMortgage s).totalInterestLifetime = 0 ∧
      paymentAmount s * (totalPayments s : ℚ) = (calculateMortgage s).totalMortgage ∧
      (calculateMortgage s).monthlyPayment * 12 * (s.amortizationPeriod : ℚ) =
        (calculateMortgage s).totalMortgage := by
  have hppy : (0 : ℚ) < (paymentsPerYear s.paymentFrequency : ℚ) := by
    exact_mod_cast paymentsPerYear_pos s.paymentFrequency
  have hn' : (0 : ℚ) < (s.amortizationPeriod : ℚ) := by exact_mod_cast hn
  have htot : ((totalPayments s : ℚ)) =
      (s.amortizationPeriod : ℚ) * (paymentsPerYear s.paymentFrequency : ℚ) := by
    unfold totalPayments; push_cast; ring
  have hpay : paymentAmount s = mortgageAmount s / (totalPayments s : ℚ) := by
    rw [paymentAmount_nonaccel s hf, if_pos h0]
  have hrpp : scenarioRatePerPayment s = 0 := by
    unfold scenarioRatePerPayment; rw [h0]; simp
  refine ⟨?_, ?_, ?_⟩
  · rw [calculateMortgage_totalInterestLifetime]
    unfold scheduleFinal
    rw [hrpp, yearLoop_interest_rpp_zero]
    rfl
  · rw [hpay, calculateMortgage_totalMortgage, div_mul_cancel₀]
    rw [htot]
    positivity
  · have hper : ((s.amortizationPeriod : ℚ)) ≠ 0 := ne_of_gt hn'
    rw [calculateMortgage_monthlyPayment, calculateMortgage_totalMortgage, hpay, htot]
    rcases hf with h | h | h <;> rw [h]
    · rw [if_pos rfl, show paymentsPerYear "monthly" = 12 from rfl]
      push_cast
      field_simp
      ring
    · rw [if_neg (by decide), show paymentsPerYear "biweekly" = 26 from rfl]
      push_cast
      field_simp
      ring
    · rw [if_neg (by decide), show paymentsPerYear "weekly" = 52 from rfl]
      push_cast
      field_simp
      ring




/-! Schedule chain invariants, for C9 and C10. -/

theorem resetYear_balance (s : PayState) : (resetYear s).balance = s.balance := rfl

theorem resetYear_yearlySchedule (s : PayState) :
    (resetYear s).yearlySchedule = s.yearlySchedule := rfl

theorem pushYear_balance (year : ℕ) (s : PayState) : (pushYear year s).balance = s.balance := rfl

theorem pushYear_yearlySchedule (year : ℕ) (s : PayState) :
    (pushYear year s).yearlySchedule = s.yearlySchedule ++
      [{ year := year, principalPaid := s.yearlyPrincipalPaid,
         interestPaid := s.yearlyInterestPaid,
         extraPayments := s.yearlyExtraPayments, endingBalance := s.balance }] := rfl

theorem chainFrom_append (l : List AmortizationItem) (a : AmortizationItem) :
    ∀ P0, chainFrom P0 l → a.endingBalance = lastBalance P0 l - a.principalPaid →
      chainFrom P0 (l ++ [a]) := by
  induction l with
  | nil => exact fun P0 _ ha => ⟨ha, trivial⟩
  | cons b rest ih => exact fun P0 hc ha => ⟨hc.1, ih b.endingBalance hc.2 ha⟩

theorem lastBalance_append (l : List AmortizationItem) (a : AmortizationItem) :
    ∀ P0, lastBalance P0 (l ++ [a]) = a.endingBalance := by
  induction l with
  | nil => intro P0; rfl
  | cons b rest ih => intro P0; exact ih b.endingBalance

theorem chainFrom_sum (l : List AmortizationItem) :
    ∀ P0, chainFrom P0 l →
      (l.map (fun a => a.principalPaid)).sum = P0 - lastBalance P0 l := by
  induction l with
  | nil => intro P0 _; simp [lastBalance]
  | cons b rest ih =>
    intro P0 hc
    have h2 := ih b.endingBalance hc.2
    have h1 := hc.1
    simp only [List.map_cons, List.sum_cons, lastBalance, h2]
    linarith

theorem lastBalance_getLast (l : List AmortizationItem) :
    ∀ P0, l ≠ [] → ∃ a, l.getLast? = some a ∧ lastBalance P0 l = a.endingBalance := by
  induction l with
  | nil => intro P0 h; exact absurd rfl h
  | cons b rest ih =>
    intro P0 _
    cases rest with
    | nil => exact ⟨b, rfl, rfl⟩
    | cons c rest2 =>
      obtain ⟨a, ha1, ha2⟩ := ih b.endingBalance (by simp)
      exact ⟨a, by rw [List.getLast?_cons_cons]; exact ha1, ha2⟩

theorem innerLoop_sum (rpp adjP e : ℚ) (term ppy year : ℕ) :
    ∀ rem i (s : PayState),
      (innerLoop rpp adjP e term ppy year rem i s).balance +
          (innerLoop rpp adjP e term ppy year rem i s).yearlyPrincipalPaid =
        s.balance + s.yearlyPrincipalPaid := by
  intro rem
  induction rem with
  | zero => intro i s; rfl
  | succ rem ih =>
    intro i s
    rw [innerLoop_succ]
    split
    · rfl
    · rw [ih, payStep_sum]

theorem innerLoop_yearlySchedule (rpp adjP e : ℚ) (term ppy year : ℕ) :
    ∀ rem i (s : PayState),
      (innerLoop rpp adjP e term ppy year rem i s).yearlySchedule = s.yearlySchedule := by
  intro rem
  induction rem with
  | zero => intro i s; rfl
  | succ rem ih =>
    intro i s
    rw [innerLoop_succ]
    split
    · rfl
    · rw [ih, payStep_yearlySchedule]

theorem yearLoop_chain (principal rpp adjP e ap : ℚ) (term ppy : ℕ) (P0 : ℚ) :
    ∀ rem year (s : PayState), chainFrom P0 s.yearlySchedule →
      lastBalance P0 s.yearlySchedule = s.balance →
      chainFrom P0 (yearLoop principal rpp adjP e ap term ppy rem year s).yearlySchedule ∧
        lastBalance P0 (yearLoop principal rpp adjP e ap term ppy rem year s).yearlySchedule =
          (yearLoop principal rpp adjP e ap term ppy rem year s).balance := by
  intro rem
  induction rem with
  | zero => exact fun year s hc hl => ⟨hc, hl⟩
  | succ rem ih =>
    intro year s hc hl
    rw [yearLoop_succ]
    simp only
    set s1 := innerLoop rpp adjP e term ppy year ppy 1 (resetYear s) with hs1
    set s2 := applyAnnualPrepayment principal ap s1 with hs2
    have hsched2 : s2.yearlySchedule = s.yearlySchedule := by
      rw [hs2, applyAnnualPrepayment_yearlySchedule, hs1, innerLoop_yearlySchedule,
        resetYear_yearlySchedule]
    have hsum2 : s2.balance + s2.yearlyPrincipalPaid = s.balance := by
      rw [hs2]
      rw [applyAnnualPrepayment_sum]
      have := innerLoop_sum rpp adjP e term ppy year ppy 1 (resetYear s)
      rw [← hs1] at this
      rw [this]
      show s.balance + 0 = s.balance
      ring
    have hc3 : chainFrom P0 (pushYear year s2).yearlySchedule := by
      rw [pushYear_yearlySchedule, hsched2]
      refine chainFrom_append _ _ P0 hc ?_
      show s2.balance = lastBalance P0 s.yearlySchedule - s2.yearlyPrincipalPaid
      rw [hl]
      linarith
    have hl3 : lastBalance P0 (pushYear year s2).yearlySchedule = (pushYear year s2).balance := by
      rw [pushYear_yearlySchedule, hsched2, lastBalance_append, pushYear_balance]
    split
    · exact ⟨hc3, hl3⟩
    · exact ih (year + 1) (pushYear year s2) hc3 hl3

theorem yearLoop_sched_length_mono (principal rpp adjP e ap : ℚ) (term ppy : ℕ) :
    ∀ rem year (s : PayState),
      s.yearlySchedule.length ≤
        (yearLoop principal rpp adjP e ap term ppy rem year s).yearlySchedule.length := by
  intro rem
  induction rem with
  | zero => intro year s; exact le_rfl
  | succ rem ih =>
    intro year s
    rw [yearLoop_succ]
    simp only
    have hlen : (pushYear year (applyAnnualPrepayment principal ap
        (innerLoop rpp adjP e term ppy year ppy 1 (resetYear s)))).yearlySchedule.length =
        s.yearlySchedule.length + 1 := by
      rw [pushYear_yearlySchedule, applyAnnualPrepayment_yearlySchedule,
        innerLoop_yearlySchedule, resetYear_yearlySchedule, List.length_append]
      rfl
    split
    · omega
    · exact le_trans (by omega) (ih (year + 1) _)

theorem yearLoop_stop (principal rpp adjP e ap : ℚ) (term ppy : ℕ) :
    ∀ rem year (s : PayState),
      (yearLoop principal rpp adjP e ap term ppy rem year s).balance ≤ 0 ∨
        (yearLoop principal rpp adjP e ap term ppy rem year s).yearlySchedule.length =
          s.yearlySchedule.length + rem := by
  intro rem
  induction rem with
  | zero => intro year s; right; rfl
  | succ rem ih =>
    intro year s
    rw [yearLoop_succ]
    simp only
    have hlen : (pushYear year (applyAnnualPrepayment principal ap
        (innerLoop rpp adjP e term ppy year ppy 1 (resetYear s)))).yearlySchedule.length =
        s.yearlySchedule.length + 1 := by
      rw [pushYear_yearlySchedule, applyAnnualPrepayment_yearlySchedule,
        innerLoop_yearlySchedule, resetYear_yearlySchedule, List.length_append]
      rfl
    split
    · left; assumption
    · rcases ih (year + 1) (pushYear year (applyAnnualPrepayment principal ap
        (innerLoop rpp adjP e term ppy year ppy 1 (resetYear s)))) with h1 | h1
      · left; exact h1
      · right; rw [h1, hlen]; omega

theorem yearLoop_length_lb (principal rpp adjP e ap : ℚ) (term ppy : ℕ)
    (rem year : ℕ) (s : PayState) (h : 1 ≤ rem) :
    s.yearlySchedule.length + 1 ≤
      (yearLoop principal rpp adjP e ap term ppy rem year s).yearlySchedule.length := by
  cases rem with
  | zero => omega
  | succ rem =>
    rw [yearLoop_succ]
    simp only
    have hlen : (pushYear year (applyAnnualPrepayment principal ap
        (innerLoop rpp adjP e term ppy year ppy 1 (resetYear s)))).yearlySchedule.length =
        s.yearlySchedule.length + 1 := by
      rw [pushYear_yearlySchedule, applyAnnualPrepayment_yearlySchedule,
        innerLoop_yearlySchedule, resetYear_yearlySchedule, List.length_append]
      rfl
    split
    · omega
    · have := yearLoop_sched_length_mono principal rpp adjP e ap term ppy rem (year + 1)
        (pushYear year (applyAnnualPrepayment principal ap
          (innerLoop rpp adjP e term ppy year ppy 1 (resetYear s))))
      omega

/-- C10: the generated schedule is a year-over-year balance chain: each item's
ending balance is the previous ending balance (the financed principal before
year 1) minus that item's `principalPaid`; in particular `principalPaid`
already contains the per-payment extra payments and the annual lump-sum
prepayment, so `extraPayments` must not be subtracted again to reconcile the
balance. -/
theorem C10_balance_chain (s : Scenario) :
    chainFrom ((calculateMortgage s).totalMortgage)
      (calculateMortgage s).amortizationSchedule := by
  rw [calculateMortgage_amortizationSchedule, calculateMortgage_totalMortgage]
  exact (yearLoop_chain (mortgageAmount s) (scenarioRatePerPayment s)
    (scenarioAdjustedPayment s) s.extraPayment s.annualPrepayment s.term
    (paymentsPerYear s.paymentFrequency) (mortgageAmount s) s.amortizationPeriod 1
    (initState (mortgageAmount s)) trivial rfl).1

/-- C9 (amended): for every scenario with at least one year of amortization the
schedule is non-empty, the sum of all yearly `principalPaid` equals the
financed principal minus the final year's ending balance exactly (hence equals
the principal exactly when the loan ends paid off), and the final ending
balance is ≤ 0 or the schedule contains exactly `amortizationPeriod` years.
(As stated — sum equal to the principal for every scenario — the claim fails
when the loop never amortizes, e.g. the degenerate zero-rate accelerated
scenario of the counterexample.) -/
theorem C9_schedule_termination (s : Scenario) (h : 1 ≤ s.amortizationPeriod) :
    ∃ last, (calculateMortgage s).amortizationSchedule.getLast? = some last ∧
      ((calculateMortgage s).amortizationSchedule.map (fun a => a.principalPaid)).sum =
        (calculateMortgage s).totalMortgage - last.endingBalance ∧
      (last.endingBalance ≤ 0 ∨
        (calculateMortgage s).amortizationSchedule.length = s.amortizationPeriod) := by
  have hchain : chainFrom (mortgageAmount s) (scheduleFinal s).yearlySchedule ∧
      lastBalance (mortgageAmount s) (scheduleFinal s).yearlySchedule =
        (scheduleFinal s).balance :=
    yearLoop_chain (mortgageAmount s) (scenarioRatePerPayment s)
      (scenarioAdjustedPayment s) s.extraPayment s.annualPrepayment s.term
      (paymentsPerYear s.paymentFrequency) (mortgageAmount s) s.amortizationPeriod 1
      (initState (mortgageAmount s)) trivial rfl
  have hlb : (initState (mortgageAmount s)).yearlySchedule.length + 1 ≤
      (scheduleFinal s).yearlySchedule.length :=
    yearLoop_length_lb (mortgageAmount s) (scenarioRatePerPayment s)
      (scenarioAdjustedPayment s) s.extraPayment s.annualPrepayment s.term
      (paymentsPerYear s.paymentFrequency) s.amortizationPeriod 1
      (initState (mortgageAmount s)) h
  have hstop : (scheduleFinal s).balance ≤ 0 ∨
      (scheduleFinal s).yearlySchedule.length =
        (initState (mortgageAmount s)).yearlySchedule.length + s.amortizationPeriod :=
    yearLoop_stop (mortgageAmount s) (scenarioRatePerPayment s)
      (scenarioAdjustedPayment s) s.extraPayment s.annualPrepayment s.term
      (paymentsPerYear s.paymentFrequency) s.amortizationPeriod 1
      (initState (mortgageAmount s))
  rw [calculateMortgage_amortizationSchedule, calculateMortgage_totalMortgage]
  have hne : (scheduleFinal s).yearlySchedule ≠ [] := by
    have : (0 : ℕ) + 1 ≤ (scheduleFinal s).yearlySchedule.length := hlb
    intro hnil
    rw [hnil] at this
    simp at this
  obtain ⟨a, ha1, ha2⟩ := lastBalance_getLast (scheduleFinal s).yearlySchedule
    (mortgageAmount s) hne
  refine ⟨a, ha1, ?_, ?_⟩
  · rw [chainFrom_sum _ _ hchain.1, ha2]
  · rcases hstop with h1 | h1
    · left
      rw [← hchain.2] at h1
      rw [ha2] at h1
      exact h1
    · right
      rw [h1]
      simp [initState]

/-- Witness scenario for the amended C9: a plain 1-year zero-rate monthly
mortgage, fully paid off. -/
def exC9w : Scenario :=
  { purchasePrice := 1200, downPayment := 0, downPaymentType := "amount"
    interestRate := 0, amortizationPeriod := 1, term := 1
    paymentFrequency := "monthly"
    extraPayment := 0, paymentIncrease := 0, annualPrepayment := 0 }

/-- C9 witness: the amended schedule-termination property at a concrete
scenario. -/
theorem C9_schedule_termination_witness :
    1 ≤ exC9w.amortizationPeriod ∧
      ∃ last, (calculateMortgage exC9w).amortizationSchedule.getLast? = some last ∧
        ((calculateMortgage exC9w).amortizationSchedule.map (fun a => a.principalPaid)).sum =
          (calculateMortgage exC9w).totalMortgage - last.endingBalance ∧
        (last.endingBalance ≤ 0 ∨
          (calculateMortgage exC9w).amortizationSchedule.length = exC9w.amortizationPeriod) :=
  ⟨by decide, C9_schedule_termination exC9w (by decide)⟩

/-! Correspondence between the schedule loop and the reference trajectory:
balances and interests coincide, and the loop's payment counter counts the
processed payments plus one extra bump exactly when the balance was exhausted
before a year's final payment slot. -/

theorem refInner_stationary (rpp adjP e : ℚ) (rem : ℕ) (t : RefState)
    (h : t.balance ≤ 0) : refInner rpp adjP e rem t = t := by
  cases rem with
  | zero => rfl
  | succ rem => rw [refInner_succ, if_pos h]

theorem refPrepay_interest (principal ap : ℚ) (t : RefState) :
    (refPrepay principal ap t).interest = t.interest := by
  unfold refPrepay; split <;> rfl

theorem refPrepay_processed (principal ap : ℚ) (t : RefState) :
    (refPrepay principal ap t).processed = t.processed := by
  unfold refPrepay; split <;> rfl

theorem refYear_stationary (principal rpp adjP e ap : ℚ) (ppy : ℕ) (t : RefState)
    (h : t.balance ≤ 0) : refYear principal rpp adjP e ap ppy t = t := by
  unfold refYear
  rw [refInner_stationary rpp adjP e ppy t h]
  unfold refPrepay
  rw [if_neg]
  intro hc
  exact absurd hc.2 (not_lt.2 h)

theorem refYears_stationary (principal rpp adjP e ap : ℚ) (ppy : ℕ) :
    ∀ rem (t : RefState), t.balance ≤ 0 →
      refYears principal rpp adjP e ap ppy rem t = t := by
  intro rem
  induction rem with
  | zero => intro t _; rfl
  | succ rem ih =>
    intro t h
    rw [refYears_succ, refYear_stationary principal rpp adjP e ap ppy t h]
    exact ih t h

theorem applyAnnualPrepayment_balance_nonpos (principal ap : ℚ) (s : PayState)
    (h : s.balance ≤ 0) : (applyAnnualPrepayment principal ap s).balance = s.balance := by
  unfold applyAnnualPrepayment
  rw [if_neg]
  intro hc
  exact absurd hc.2 (not_lt.2 h)

theorem prepay_ref_balance (principal ap : ℚ) (s : PayState) (t : RefState)
    (h : t.balance = s.balance) :
    (refPrepay principal ap t).balance = (applyAnnualPrepayment principal ap s).balance := by
  unfold refPrepay applyAnnualPrepayment
  rw [h]
  split
  · rfl
  · exact h

/-- Inner-loop correspondence with the reference trajectory: balances and
interests agree, and the loop's counter is the processed count, plus one when
(and only when) the loop broke on an exhausted balance. -/
theorem innerLoop_ref (rpp adjP e : ℚ) (term ppy year : ℕ) :
    ∀ rem i (s : PayState) (t : RefState), t.balance = s.balance →
      t.interest = s.totalInterestPaid →
      (innerLoop rpp adjP e term ppy year rem i s).balance =
          (refInner rpp adjP e rem t).balance ∧
        (innerLoop rpp adjP e term ppy year rem i s).totalInterestPaid =
          (refInner rpp adjP e rem t).interest ∧
        ((innerLoop rpp adjP e term ppy year rem i s).lastPaymentNumber + t.processed =
            s.lastPaymentNumber + (refInner rpp adjP e rem t).processed ∨
          ((innerLoop rpp adjP e term ppy year rem i s).lastPaymentNumber + t.processed =
              s.lastPaymentNumber + (refInner rpp adjP e rem t).processed + 1 ∧
            (innerLoop rpp adjP e term ppy year rem i s).balance ≤ 0)) := by
  intro rem
  induction rem with
  | zero => exact fun i s t hb hi => ⟨hb.symm, hi.symm, Or.inl rfl⟩
  | succ rem ih =>
    intro i s t hb hi
    rw [innerLoop_succ, refInner_succ]
    by_cases h0 : s.balance ≤ 0
    · rw [if_pos h0, if_pos (by rw [hb]; exact h0)]
      refine ⟨hb.symm, hi.symm, Or.inr ⟨?_, h0⟩⟩
      show s.lastPaymentNumber + 1 + t.processed = s.lastPaymentNumber + t.processed + 1
      omega
    · rw [if_neg h0, if_neg (by rw [hb]; exact h0)]
      have hb' : (refPay rpp adjP e t).balance =
          (payStep rpp adjP e term ppy year i
            { s with lastPaymentNumber := s.lastPaymentNumber + 1 }).balance := by
        rw [payStep_balance]
        show balStep rpp adjP e t.balance = balStep rpp adjP e s.balance
        rw [hb]
      have hi' : (refPay rpp adjP e t).interest =
          (payStep rpp adjP e term ppy year i
            { s with lastPaymentNumber := s.lastPaymentNumber + 1 }).totalInterestPaid := by
        rw [payStep_totalInterestPaid]
        show t.interest + t.balance * rpp = s.totalInterestPaid + s.balance * rpp
        rw [hb, hi]
      obtain ⟨c1, c2, c3⟩ := ih (i + 1)
        (payStep rpp adjP e term ppy year i
          { s with lastPaymentNumber := s.lastPaymentNumber + 1 })
        (refPay rpp adjP e t) hb' hi'
      refine ⟨c1, c2, ?_⟩
      have hc : (payStep rpp adjP e term ppy year i
          { s with lastPaymentNumber := s.lastPaymentNumber + 1 }).lastPaymentNumber =
          s.lastPaymentNumber + 1 := rfl
      have hp : (refPay rpp adjP e t).processed = t.processed + 1 := rfl
      have hb2 : ({ s with lastPaymentNumber := s.lastPaymentNumber + 1 } : PayState).lastPaymentNumber =
          s.lastPaymentNumber + 1 := rfl
      rcases c3 with c3 | ⟨c3, c4⟩
      · left; omega
      · right; exact ⟨by omega, c4⟩

/-- Year-loop correspondence with the reference trajectory. -/
theorem yearLoop_ref (principal rpp adjP e ap : ℚ) (term ppy : ℕ) :
    ∀ rem year (s : PayState) (t : RefState), t.balance = s.balance →
      t.interest = s.totalInterestPaid →
      (yearLoop principal rpp adjP e ap term ppy rem year s).balance =
          (refYears principal rpp adjP e ap ppy rem t).balance ∧
        (yearLoop principal rpp adjP e ap term ppy rem year s).totalInterestPaid =
          (refYears principal rpp adjP e ap ppy rem t).interest ∧
        ((yearLoop principal rpp adjP e ap term ppy rem year s).lastPaymentNumber + t.processed =
            s.lastPaymentNumber + (refYears principal rpp adjP e ap ppy rem t).processed ∨
          ((yearLoop principal rpp adjP e ap term ppy rem year s).lastPaymentNumber + t.processed =
              s.lastPaymentNumber + (refYears principal rpp adjP e ap ppy rem t).processed + 1 ∧
            (yearLoop principal rpp adjP e ap term ppy rem year s).balance ≤ 0)) := by
  intro rem
  induction rem with
  | zero => exact fun year s t hb hi => ⟨hb.symm, hi.symm, Or.inl rfl⟩
  | succ rem ih =>
    intro year s t hb hi
    rw [yearLoop_succ, refYears_succ]
    simp only
    obtain ⟨b1, i1, c1⟩ := innerLoop_ref rpp adjP e term ppy year ppy 1 (resetYear s) t
      (by rw [hb]; rfl) (by rw [hi]; rfl)
    set s1 := innerLoop rpp adjP e term ppy year ppy 1 (resetYear s) with hs1
    set u1 := refInner rpp adjP e ppy t with hu1
    have hbal2 : (refYear principal rpp adjP e ap ppy t).balance =
        (pushYear year (applyAnnualPrepayment principal ap s1)).balance := by
      rw [pushYear_balance]
      exact prepay_ref_balance principal ap s1 u1 b1.symm
    have hint2 : (refYear principal rpp adjP e ap ppy t).interest =
        (pushYear year (applyAnnualPrepayment principal ap s1)).totalInterestPaid := by
      show (refPrepay principal ap u1).interest =
        (applyAnnualPrepayment principal ap s1).totalInterestPaid
      rw [refPrepay_interest, applyAnnualPrepayment_totalInterestPaid]
      exact i1.symm
    have hlast2 : (pushYear year (applyAnnualPrepayment principal ap s1)).lastPaymentNumber =
        s1.lastPaymentNumber := by
      show (applyAnnualPrepayment principal ap s1).lastPaymentNumber = s1.lastPaymentNumber
      exact applyAnnualPrepayment_lastPaymentNumber principal ap s1
    have hproc2 : (refYear principal rpp adjP e ap ppy t).processed = u1.processed := by
      show (refPrepay principal ap u1).processed = u1.processed
      exact refPrepay_processed principal ap u1
    have hreslast : (resetYear s).lastPaymentNumber = s.lastPaymentNumber := rfl
    split
    · rename_i hstop
      have hystat := refYears_stationary principal rpp adjP e ap ppy rem
        (refYear principal rpp adjP e ap ppy t) (by rw [hbal2]; exact hstop)
      rw [hystat]
      refine ⟨hbal2.symm ▸ rfl, ?_, ?_⟩
      · rw [hint2]
      · rw [hlast2, hproc2]
        rcases c1 with c | ⟨c, _⟩
        · left; omega
        · right; exact ⟨by omega, hstop⟩
    · rename_i hstop
      obtain ⟨b3, i3, c3⟩ := ih (year + 1) (pushYear year (applyAnnualPrepayment principal ap s1))
        (refYear principal rpp adjP e ap ppy t) hbal2 hint2
      refine ⟨b3, i3, ?_⟩
      rcases c1 with c | ⟨c, cneg⟩
      · rw [hlast2, hproc2] at c3
        rcases c3 with c3 | ⟨c3, c3b⟩
        · left; omega
        · right; exact ⟨by omega, c3b⟩
      · exfalso
        apply hstop
        rw [pushYear_balance, applyAnnualPrepayment_balance_nonpos principal ap s1 cneg]
        exact cneg

/-- C4 (amended): the effective amortization reported by `calculateMortgage`
is `lastPaymentNumber / paymentsPerYear`, where `lastPaymentNumber` is the
number of payments actually processed, or that number plus one — the extra
count occurring exactly when the balance was exhausted strictly before the
last payment slot of a year, because the loop increments its counter before
checking the break condition. -/
theorem C4_effective_amortization (s : Scenario) :
    (calculateMortgage s).effectiveAmortization =
        (processedPayments s : ℚ) / (paymentsPerYear s.paymentFrequency : ℚ) ∨
      (calculateMortgage s).effectiveAmortization =
        ((processedPayments s : ℚ) + 1) / (paymentsPerYear s.paymentFrequency : ℚ) := by
  have h : (scheduleFinal s).balance = _ ∧
      (scheduleFinal s).totalInterestPaid = _ ∧
      ((scheduleFinal s).lastPaymentNumber +
          (RefState.mk (mortgageAmount s) 0 0).processed =
          (initState (mortgageAmount s)).lastPaymentNumber +
            (refYears (mortgageAmount s) (scenarioRatePerPayment s)
              (scenarioAdjustedPayment s) s.extraPayment s.annualPrepayment
              (paymentsPerYear s.paymentFrequency) s.amortizationPeriod
              (RefState.mk (mortgageAmount s) 0 0)).processed ∨
        ((scheduleFinal s).lastPaymentNumber +
            (RefState.mk (mortgageAmount s) 0 0).processed =
            (initState (mortgageAmount s)).lastPaymentNumber +
              (refYears (mortgageAmount s) (scenarioRatePerPayment s)
                (scenarioAdjustedPayment s) s.extraPayment s.annualPrepayment
                (paymentsPerYear s.paymentFrequency) s.amortizationPeriod
                (RefState.mk (mortgageAmount s) 0 0)).processed + 1 ∧
          (scheduleFinal s).balance ≤ 0)) :=
    yearLoop_ref (mortgageAmount s) (scenarioRatePerPayment s) (scenarioAdjustedPayment s)
      s.extraPayment s.annualPrepayment s.term (paymentsPerYear s.paymentFrequency)
      s.amortizationPeriod 1 (initState (mortgageAmount s))
      (RefState.mk (mortgageAmount s) 0 0) rfl rfl
  rw [calculateMortgage_effectiveAmortization]
  have hproc : (refYears (mortgageAmount s) (scenarioRatePerPayment s)
      (scenarioAdjustedPayment s) s.extraPayment s.annualPrepayment
      (paymentsPerYear s.paymentFrequency) s.amortizationPeriod
      (RefState.mk (mortgageAmount s) 0 0)).processed = processedPayments s := rfl
  have hz : (initState (mortgageAmount s)).lastPaymentNumber = 0 := rfl
  have h00 : (RefState.mk (mortgageAmount s) 0 0).processed = 0 := rfl
  rcases h.2.2 with hc | ⟨hc, _⟩
  · left
    rw [hproc, hz, h00] at hc
    have hlast : (scheduleFinal s).lastPaymentNumber = processedPayments s := by omega
    rw [hlast]
  · right
    rw [hproc, hz, h00] at hc
    have hlast : (scheduleFinal s).lastPaymentNumber = processedPayments s + 1 := by omega
    rw [hlast]
    push_cast
    ring_nf

/-! Monotonicity in the extra payment (C7): a simulation relation between the
runs with extra payments `e1 ≤ e2`. -/

/-- Simulation relation: the larger-extra-payment run has a smaller (but still
non-negative) balance, no more interest, and no larger payment counter; the
counters agree while the second run's balance is still positive. -/
def SimRel (s1 s2 : PayState) : Prop :=
  0 ≤ s2.balance ∧ s2.balance ≤ s1.balance ∧
    s2.totalInterestPaid ≤ s1.totalInterestPaid ∧
    s2.lastPaymentNumber ≤ s1.lastPaymentNumber ∧
    (0 < s2.balance → s2.lastPaymentNumber = s1.lastPaymentNumber)

theorem innerLoop_run (rpp adjP e : ℚ) (term ppy year : ℕ) (hr : 0 ≤ rpp) (he : 0 ≤ e) :
    ∀ rem i (s : PayState), 0 ≤ s.balance →
      0 ≤ (innerLoop rpp adjP e term ppy year rem i s).balance ∧
        s.totalInterestPaid ≤ (innerLoop rpp adjP e term ppy year rem i s).totalInterestPaid ∧
        s.lastPaymentNumber ≤ (innerLoop rpp adjP e term ppy year rem i s).lastPaymentNumber := by
  intro rem
  induction rem with
  | zero => exact fun i s h => ⟨h, le_rfl, le_rfl⟩
  | succ rem ih =>
    intro i s h
    rw [innerLoop_succ]
    split
    · refine ⟨h, le_rfl, ?_⟩
      show s.lastPaymentNumber ≤ s.lastPaymentNumber + 1
      omega
    · rename_i h0
      obtain ⟨r1, r2, r3⟩ := ih (i + 1)
        (payStep rpp adjP e term ppy year i
          { s with lastPaymentNumber := s.lastPaymentNumber + 1 })
        (by rw [payStep_balance]; exact balStep_nonneg rpp adjP e _ he)
      refine ⟨r1, le_trans ?_ r2, le_trans ?_ r3⟩
      · rw [payStep_totalInterestPaid]
        show s.totalInterestPaid ≤ s.totalInterestPaid + s.balance * rpp
        have hplus : 0 ≤ s.balance * rpp := mul_nonneg h hr
        linarith
      · rw [payStep_lastPaymentNumber]
        show s.lastPaymentNumber ≤ s.lastPaymentNumber + 1
        omega

theorem innerLoop_mono (rpp adjP e1 e2 : ℚ) (term ppy year : ℕ)
    (hr : 0 ≤ rpp) (he1 : 0 ≤ e1) (h12 : e1 ≤ e2) :
    ∀ rem i (s1 s2 : PayState), SimRel s1 s2 →
      SimRel (innerLoop rpp adjP e1 term ppy year rem i s1)
        (innerLoop rpp adjP e2 term ppy year rem i s2) := by
  intro rem
  induction rem with
  | zero => exact fun i s1 s2 h => h
  | succ rem ih =>
    intro i s1 s2 h
    obtain ⟨hb0, hb, hi, hn, heq⟩ := h
    rw [innerLoop_succ, innerLoop_succ]
    by_cases h1b : s1.balance ≤ 0
    · have h2b : s2.balance ≤ 0 := le_trans hb h1b
      rw [if_pos h1b, if_pos h2b]
      refine ⟨hb0, hb, hi, ?_, ?_⟩
      · show s2.lastPaymentNumber + 1 ≤ s1.lastPaymentNumber + 1
        omega
      · intro hpos
        exact absurd (lt_of_lt_of_le hpos h2b) (lt_irrefl 0)
    · rw [if_neg h1b]
      by_cases h2b : s2.balance ≤ 0
      · rw [if_pos h2b]
        have hz : s2.balance = 0 := le_antisymm h2b hb0
        obtain ⟨r1, r2, r3⟩ := innerLoop_run rpp adjP e1 term ppy year hr he1 rem (i + 1)
          (payStep rpp adjP e1 term ppy year i
            { s1 with lastPaymentNumber := s1.lastPaymentNumber + 1 })
          (by rw [payStep_balance]; exact balStep_nonneg rpp adjP e1 _ he1)
        refine ⟨hb0, ?_, ?_, ?_, ?_⟩
        · show s2.balance ≤ _
          rw [hz]
          exact r1
        · refine le_trans ?_ r2
          rw [payStep_totalInterestPaid]
          show s2.totalInterestPaid ≤ s1.totalInterestPaid + s1.balance * rpp
          have hplus : 0 ≤ s1.balance * rpp :=
            mul_nonneg (le_trans hb0 hb) hr
          linarith
        · refine le_trans ?_ r3
          rw [payStep_lastPaymentNumber]
          show s2.lastPaymentNumber + 1 ≤ s1.lastPaymentNumber + 1
          omega
        · intro hpos
          exact absurd (hz ▸ hpos) (lt_irrefl 0)
      · rw [if_neg h2b]
        have h2pos : 0 < s2.balance := lt_of_not_le h2b
        have hceq : s2.lastPaymentNumber = s1.lastPaymentNumber := heq h2pos
        refine ih (i + 1) _ _ ⟨?_, ?_, ?_, ?_, ?_⟩
        · rw [payStep_balance]
          exact balStep_nonneg rpp adjP e2 _ (le_trans he1 h12)
        · rw [payStep_balance, payStep_balance]
          exact balStep_mono rpp adjP e1 e2 s1.balance s2.balance hr he1 h12 hb
        · rw [payStep_totalInterestPaid, payStep_totalInterestPaid]
          show s2.totalInterestPaid + s2.balance * rpp ≤
            s1.totalInterestPaid + s1.balance * rpp
          have hmul : s2.balance * rpp ≤ s1.balance * rpp :=
            mul_le_mul_of_nonneg_right hb hr
          linarith
        · rw [payStep_lastPaymentNumber, payStep_lastPaymentNumber]
          show s2.lastPaymentNumber + 1 ≤ s1.lastPaymentNumber + 1
          omega
        · intro _
          rw [payStep_lastPaymentNumber, payStep_lastPaymentNumber]
          show s2.lastPaymentNumber + 1 = s1.lastPaymentNumber + 1
          omega

theorem sub_min_self (c b : ℚ) : b - min c b = max (b - c) 0 := by
  rcases le_total c b with h | h
  · rw [min_eq_left h, max_eq_left (by linarith)]
  · rw [min_eq_right h, max_eq_right (by linarith)]
    ring

theorem applyAnnualPrepayment_balance_nonneg (principal ap : ℚ) (s : PayState)
    (h : 0 ≤ s.balance) : 0 ≤ (applyAnnualPrepayment principal ap s).balance := by
  unfold applyAnnualPrepayment
  split
  · show 0 ≤ s.balance - min (principal * (ap / 100)) s.balance
    rw [sub_min_self]
    exact le_max_right _ _
  · exact h

theorem applyAnnualPrepayment_simrel (principal ap : ℚ) (s1 s2 : PayState)
    (h : SimRel s1 s2) :
    SimRel (applyAnnualPrepayment principal ap s1) (applyAnnualPrepayment principal ap s2) := by
  obtain ⟨hb0, hb, hi, hn, heq⟩ := h
  have hcount1 := applyAnnualPrepayment_lastPaymentNumber principal ap s1
  have hcount2 := applyAnnualPrepayment_lastPaymentNumber principal ap s2
  have hint1 := applyAnnualPrepayment_totalInterestPaid principal ap s1
  have hint2 := applyAnnualPrepayment_totalInterestPaid principal ap s2
  refine ⟨applyAnnualPrepayment_balance_nonneg principal ap s2 hb0, ?_, ?_, ?_, ?_⟩
  · unfold applyAnnualPrepayment
    by_cases hap : 0 < ap
    · by_cases h2 : 0 < s2.balance
      · rw [if_pos ⟨hap, h2⟩, if_pos ⟨hap, lt_of_lt_of_le h2 hb⟩]
        show s2.balance - min (principal * (ap / 100)) s2.balance ≤
          s1.balance - min (principal * (ap / 100)) s1.balance
        rw [sub_min_self, sub_min_self]
        exact max_le_max (by linarith) le_rfl
      · rw [if_neg (fun hc => h2 hc.2)]
        by_cases h1 : 0 < s1.balance
        · rw [if_pos ⟨hap, h1⟩]
          show s2.balance ≤ s1.balance - min (principal * (ap / 100)) s1.balance
          rw [sub_min_self]
          have hz : s2.balance = 0 := le_antisymm (not_lt.1 h2) hb0
          rw [hz]
          exact le_max_right _ _
        · rw [if_neg (fun hc => h1 hc.2)]
          exact hb
    · rw [if_neg (fun hc => hap hc.1), if_neg (fun hc => hap hc.1)]
      exact hb
  · rw [hint1, hint2]; exact hi
  · rw [hcount1, hcount2]; exact hn
  · intro hpos
    rw [hcount1, hcount2]
    refine heq ?_
    by_contra hnot
    have hz : s2.balance ≤ 0 := not_lt.1 hnot
    rw [applyAnnualPrepayment_balance_nonpos principal ap s2 hz] at hpos
    exact absurd (lt_of_lt_of_le hpos hz) (lt_irrefl 0)

theorem yearLoop_run (principal rpp adjP e ap : ℚ) (term ppy : ℕ)
    (hr : 0 ≤ rpp) (he : 0 ≤ e) :
    ∀ rem year (s : PayState), 0 ≤ s.balance →
      0 ≤ (yearLoop principal rpp adjP e ap term ppy rem year s).balance ∧
        s.totalInterestPaid ≤
          (yearLoop principal rpp adjP e ap term ppy rem year s).totalInterestPaid ∧
        s.lastPaymentNumber ≤
          (yearLoop principal rpp adjP e ap term ppy rem year s).lastPaymentNumber := by
  intro rem
  induction rem with
  | zero => exact fun year s h => ⟨h, le_rfl, le_rfl⟩
  | succ rem ih =>
    intro year s h
    rw [yearLoop_succ]
    simp only
    obtain ⟨r1, r2, r3⟩ := innerLoop_run rpp adjP e term ppy year hr he ppy 1 (resetYear s) h
    set s1 := innerLoop rpp adjP e term ppy year ppy 1 (resetYear s) with hs1
    have hb3 : 0 ≤ (pushYear year (applyAnnualPrepayment principal ap s1)).balance := by
      rw [pushYear_balance]
      exact applyAnnualPrepayment_balance_nonneg principal ap s1 r1
    have hi3 : s.totalInterestPaid ≤
        (pushYear year (applyAnnualPrepayment principal ap s1)).totalInterestPaid := by
      show s.totalInterestPaid ≤ (applyAnnualPrepayment principal ap s1).totalInterestPaid
      rw [applyAnnualPrepayment_totalInterestPaid]
      exact r2
    have hn3 : s.lastPaymentNumber ≤
        (pushYear year (applyAnnualPrepayment principal ap s1)).lastPaymentNumber := by
      show s.lastPaymentNumber ≤ (applyAnnualPrepayment principal ap s1).lastPaymentNumber
      rw [applyAnnualPrepayment_lastPaymentNumber]
      exact r3
    split
    · exact ⟨hb3, hi3, hn3⟩
    · obtain ⟨q1, q2, q3⟩ := ih (year + 1) (pushYear year (applyAnnualPrepayment principal ap s1)) hb3
      exact ⟨q1, le_trans hi3 q2, le_trans hn3 q3⟩

theorem yearLoop_mono (principal rpp adjP e1 e2 ap : ℚ) (term ppy : ℕ)
    (hr : 0 ≤ rpp) (he1 : 0 ≤ e1) (h12 : e1 ≤ e2) :
    ∀ rem year (s1 s2 : PayState), SimRel s1 s2 →
      SimRel (yearLoop principal rpp adjP e1 ap term ppy rem year s1)
        (yearLoop principal rpp adjP e2 ap term ppy rem year s2) := by
  intro rem
  induction rem with
  | zero => exact fun year s1 s2 h => h
  | succ rem ih =>
    intro year s1 s2 h
    rw [yearLoop_succ, yearLoop_succ]
    simp only
    have hresets : SimRel (resetYear s1) (resetYear s2) := h
    have hin := innerLoop_mono rpp adjP e1 e2 term ppy year hr he1 h12 ppy 1
      (resetYear s1) (resetYear s2) hresets
    have hpre := applyAnnualPrepayment_simrel principal ap _ _ hin
    set t1 := pushYear year (applyAnnualPrepayment principal ap
      (innerLoop rpp adjP e1 term ppy year ppy 1 (resetYear s1))) with ht1
    set t2 := pushYear year (applyAnnualPrepayment principal ap
      (innerLoop rpp adjP e2 term ppy year ppy 1 (resetYear s2))) with ht2
    have hpush : SimRel t1 t2 := hpre
    obtain ⟨pb0, pb, pi2, pn, peq⟩ := hpush
    by_cases h1b : t1.balance ≤ 0
    · have h2b : t2.balance ≤ 0 := le_trans pb h1b
      rw [if_pos h1b, if_pos h2b]
      exact ⟨pb0, pb, pi2, pn, peq⟩
    · rw [if_neg h1b]
      by_cases h2b : t2.balance ≤ 0
      · rw [if_pos h2b]
        have hz : t2.balance = 0 := le_antisymm h2b pb0
        obtain ⟨q1, q2, q3⟩ := yearLoop_run principal rpp adjP e1 ap term ppy hr he1 rem
          (year + 1) t1 (le_trans pb0 pb)
        refine ⟨pb0, ?_, le_trans pi2 q2, le_trans pn q3, ?_⟩
        · rw [hz]; exact q1
        · intro hpos
          exact absurd (hz ▸ hpos) (lt_irrefl 0)
      · rw [if_neg h2b]
        exact ih (year + 1) t1 t2 ⟨pb0, pb, pi2, pn, peq⟩

theorem annuity_nonneg (P r : ℚ) (n : ℕ) (hP : 0 ≤ P) (hr : 0 ≤ r) :
    0 ≤ P * (r * (1 + r) ^ n) / ((1 + r) ^ n - 1) := by
  rcases eq_or_lt_of_le hr with h | h
  · rw [← h]
    simp
  · rcases Nat.eq_zero_or_pos n with hn | hn
    · subst hn
      simp
    · have hgt : 1 < (1 + r) ^ n := one_lt_pow₀ (by linarith) (by omega)
      apply div_nonneg
      · exact mul_nonneg hP (mul_nonneg h.le (pow_nonneg (by linarith) n))
      · linarith

theorem mortgageAmount_nonneg (s : Scenario) (h : WellFormed s) : 0 ≤ mortgageAmount s := by
  obtain ⟨h1, h2, _, _, _, _, h7, h8⟩ := h
  unfold mortgageAmount downPaymentAmount
  split
  · rename_i ht
    have hd := h7 ht
    linarith
  · rename_i ht
    have hd := h8 ht
    have hle : s.purchasePrice * (s.downPayment / 100) ≤ s.purchasePrice * 1 := by
      apply mul_le_mul_of_nonneg_left _ h1
      linarith
    linarith

theorem paymentAmount_nonneg (s : Scenario) (hP : 0 ≤ mortgageAmount s)
    (hr : 0 ≤ s.interestRate) : 0 ≤ paymentAmount s := by
  have hr12 : 0 ≤ s.interestRate / 100 / 12 :=
    div_nonneg (div_nonneg hr (by norm_num)) (by norm_num)
  have hrp : 0 ≤ s.interestRate / 100 / (paymentsPerYear s.paymentFrequency : ℚ) :=
    div_nonneg (div_nonneg hr (by norm_num)) (Nat.cast_nonneg _)
  simp only [paymentAmount]
  split_ifs with hb hw h0
  · exact div_nonneg (annuity_nonneg (mortgageAmount s) (s.interestRate / 100 / 12)
      (s.amortizationPeriod * 12) hP hr12) (by norm_num)
  · exact div_nonneg (annuity_nonneg (mortgageAmount s) (s.interestRate / 100 / 12)
      (s.amortizationPeriod * 12) hP hr12) (by norm_num)
  · exact div_nonneg hP (Nat.cast_nonneg _)
  · exact annuity_nonneg (mortgageAmount s)
      (s.interestRate / 100 / (paymentsPerYear s.paymentFrequency : ℚ))
      (s.amortizationPeriod * paymentsPerYear s.paymentFrequency) hP hrp

theorem scenarioRatePerPayment_nonneg (s : Scenario) (hr : 0 ≤ s.interestRate) :
    0 ≤ scenarioRatePerPayment s :=
  div_nonneg (div_nonneg hr (by norm_num)) (Nat.cast_nonneg _)

theorem scenarioAdjustedPayment_nonneg (s : Scenario) (h : WellFormed s) :
    0 ≤ scenarioAdjustedPayment s := by
  have hpay := paymentAmount_nonneg s (mortgageAmount_nonneg s h) h.2.2.1
  have hpi : 0 ≤ s.paymentIncrease := h.2.2.2.2.1
  unfold scenarioAdjustedPayment
  apply mul_nonneg hpay
  linarith

/-- C7: increasing the extra payment (all other fields fixed, well-formed
non-negative input) never increases the lifetime interest and never increases
the effective amortization. -/
theorem C7_extra_payment_monotone (s : Scenario) (e2 : ℚ) (hw : WellFormed s)
    (h12 : s.extraPayment ≤ e2) :
    (calculateMortgage { s with extraPayment := e2 }).totalInterestLifetime ≤
        (calculateMortgage s).totalInterestLifetime ∧
      (calculateMortgage { s with extraPayment := e2 }).effectiveAmortization ≤
        (calculateMortgage s).effectiveAmortization := by
  have hr := scenarioRatePerPayment_nonneg s hw.2.2.1
  have he1 : 0 ≤ s.extraPayment := hw.2.2.2.1
  have hP := mortgageAmount_nonneg s hw
  have hsim := yearLoop_mono (mortgageAmount s) (scenarioRatePerPayment s)
    (scenarioAdjustedPayment s) s.extraPayment e2 s.annualPrepayment s.term
    (paymentsPerYear s.paymentFrequency) hr he1 h12 s.amortizationPeriod 1
    (initState (mortgageAmount s)) (initState (mortgageAmount s))
    ⟨hP, le_rfl, le_rfl, le_rfl, fun _ => rfl⟩
  have hkey : SimRel (scheduleFinal s) (scheduleFinal { s with extraPayment := e2 }) := hsim
  obtain ⟨_, _, hint, hcount, _⟩ := hkey
  constructor
  · rw [calculateMortgage_totalInterestLifetime, calculateMortgage_totalInterestLifetime]
    exact hint
  · rw [calculateMortgage_effectiveAmortization, calculateMortgage_effectiveAmortization]
    have hfreq : ({ s with extraPayment := e2 } : Scenario).paymentFrequency =
        s.paymentFrequency := rfl
    rw [hfreq]
    have hppy : (0 : ℚ) < (paymentsPerYear s.paymentFrequency : ℚ) := by
      exact_mod_cast paymentsPerYear_pos _
    refine (div_le_div_iff_of_pos_right hppy).mpr ?_
    exact_mod_cast hcount

/-! Counting facts about the reference trajectory, for the term-end snapshot
claim (C5). -/

theorem refPrepay_nonpos (principal ap : ℚ) (t : RefState) (h : t.balance ≤ 0) :
    refPrepay principal ap t = t := by
  unfold refPrepay
  rw [if_neg]
  intro hc
  exact absurd hc.2 (not_lt.2 h)

theorem pushYear_snapshot (year : ℕ) (s : PayState) :
    (pushYear year s).balanceAtEndOfTerm = s.balanceAtEndOfTerm ∧
      (pushYear year s).totalInterestPaidOverTerm = s.totalInterestPaidOverTerm :=
  ⟨rfl, rfl⟩

theorem refInner_processed_le (rpp adjP e : ℚ) :
    ∀ rem (t : RefState), (refInner rpp adjP e rem t).processed ≤ t.processed + rem := by
  intro rem
  induction rem with
  | zero => intro t; rw [refInner_zero]; omega
  | succ rem ih =>
    intro t
    rw [refInner_succ]
    split
    · omega
    · have := ih (refPay rpp adjP e t)
      have hp : (refPay rpp adjP e t).processed = t.processed + 1 := rfl
      omega

theorem refInner_processed_mono (rpp adjP e : ℚ) :
    ∀ rem (t : RefState), t.processed ≤ (refInner rpp adjP e rem t).processed := by
  intro rem
  induction rem with
  | zero => intro t; exact le_rfl
  | succ rem ih =>
    intro t
    rw [refInner_succ]
    split
    · exact le_rfl
    · have := ih (refPay rpp adjP e t)
      have hp : (refPay rpp adjP e t).processed = t.processed + 1 := rfl
      omega

theorem refInner_partial_balance (rpp adjP e : ℚ) :
    ∀ rem (t : RefState), (refInner rpp adjP e rem t).processed < t.processed + rem →
      (refInner rpp adjP e rem t).balance ≤ 0 := by
  intro rem
  induction rem with
  | zero => intro t h; rw [refInner_zero] at h; omega
  | succ rem ih =>
    intro t h
    rw [refInner_succ] at h ⊢
    split
    · assumption
    · rename_i h0
      rw [if_neg h0] at h
      apply ih (refPay rpp adjP e t)
      have hp : (refPay rpp adjP e t).processed = t.processed + 1 := rfl
      omega

theorem refYear_processed_le (principal rpp adjP e ap : ℚ) (ppy : ℕ) (t : RefState) :
    (refYear principal rpp adjP e ap ppy t).processed ≤ t.processed + ppy := by
  unfold refYear
  rw [refPrepay_processed]
  exact refInner_processed_le rpp adjP e ppy t

theorem refYear_processed_mono (principal rpp adjP e ap : ℚ) (ppy : ℕ) (t : RefState) :
    t.processed ≤ (refYear principal rpp adjP e ap ppy t).processed := by
  unfold refYear
  rw [refPrepay_processed]
  exact refInner_processed_mono rpp adjP e ppy t

theorem refYears_processed_le (principal rpp adjP e ap : ℚ) (ppy : ℕ) :
    ∀ rem (t : RefState),
      (refYears principal rpp adjP e ap ppy rem t).processed ≤ t.processed + rem * ppy := by
  intro rem
  induction rem with
  | zero => intro t; rw [refYears_zero]; omega
  | succ rem ih =>
    intro t
    rw [refYears_succ]
    have h1 := ih (refYear principal rpp adjP e ap ppy t)
    have h2 := refYear_processed_le principal rpp adjP e ap ppy t
    have harith : (rem + 1) * ppy = rem * ppy + ppy := by ring
    omega

theorem refYears_processed_mono (principal rpp adjP e ap : ℚ) (ppy : ℕ) :
    ∀ rem (t : RefState),
      t.processed ≤ (refYears principal rpp adjP e ap ppy rem t).processed := by
  intro rem
  induction rem with
  | zero => intro t; exact le_rfl
  | succ rem ih =>
    intro t
    rw [refYears_succ]
    exact le_trans (refYear_processed_mono principal rpp adjP e ap ppy t)
      (ih (refYear principal rpp adjP e ap ppy t))

theorem refYears_partial_balance (principal rpp adjP e ap : ℚ) (ppy : ℕ) :
    ∀ rem (t : RefState),
      (refYears principal rpp adjP e ap ppy rem t).processed < t.processed + rem * ppy →
      (refYears principal rpp adjP e ap ppy rem t).balance ≤ 0 := by
  intro rem
  induction rem with
  | zero => intro t h; rw [refYears_zero] at h; omega
  | succ rem ih =>
    intro t h
    rw [refYears_succ] at h ⊢
    by_cases hfull : (refYear principal rpp adjP e ap ppy t).processed = t.processed + ppy
    · apply ih (refYear principal rpp adjP e ap ppy t)
      have harith : (rem + 1) * ppy = ppy + rem * ppy := by ring
      omega
    · have hlt : (refInner rpp adjP e ppy t).processed < t.processed + ppy := by
        have h1 := refYear_processed_le principal rpp adjP e ap ppy t
        have h2 : (refYear principal rpp adjP e ap ppy t).processed =
            (refInner rpp adjP e ppy t).processed := refPrepay_processed principal ap _
        omega
      have hb : (refInner rpp adjP e ppy t).balance ≤ 0 :=
        refInner_partial_balance rpp adjP e ppy t hlt
      have hyt : refYear principal rpp adjP e ap ppy t = refInner rpp adjP e ppy t := by
        unfold refYear
        exact refPrepay_nonpos principal ap _ hb
      rw [hyt, refYears_stationary principal rpp adjP e ap ppy rem _ hb]
      exact hb

theorem refYears_add (principal rpp adjP e ap : ℚ) (ppy : ℕ) :
    ∀ a b (t : RefState),
      refYears principal rpp adjP e ap ppy (a + b) t =
        refYears principal rpp adjP e ap ppy b
          (refYears principal rpp adjP e ap ppy a t) := by
  intro a
  induction a with
  | zero => intro b t; rw [Nat.zero_add]; rfl
  | succ a ih =>
    intro b t
    have harith : a + 1 + b = (a + b) + 1 := by omega
    rw [harith]
    show refYears principal rpp adjP e ap ppy (a + b)
        (refYear principal rpp adjP e ap ppy t) = _
    rw [ih b (refYear principal rpp adjP e ap ppy t)]
    rfl

theorem refYears_succ_last (principal rpp adjP e ap : ℚ) (ppy : ℕ) (k : ℕ) (t : RefState) :
    refYears principal rpp adjP e ap ppy (k + 1) t =
      refYear principal rpp adjP e ap ppy (refYears principal rpp adjP e ap ppy k t) := by
  rw [refYears_add principal rpp adjP e ap ppy k 1 t]
  rfl

theorem refInner_processed_shift (rpp adjP e : ℚ) :
    ∀ rem (b i0 : ℚ) (c : ℕ),
      (refInner rpp adjP e rem (RefState.mk b i0 c)).processed =
        c + (refInner rpp adjP e rem (RefState.mk b 0 0)).processed := by
  intro rem
  induction rem with
  | zero =>
    intro b i0 c
    rw [refInner_zero, refInner_zero]
    show c = c + 0
    omega
  | succ rem ih =>
    intro b i0 c
    rw [refInner_succ, refInner_succ]
    by_cases h0 : b ≤ 0
    · rw [if_pos h0, if_pos h0]
      show c = c + 0
      omega
    · rw [if_neg h0, if_neg h0]
      show (refInner rpp adjP e rem
          (RefState.mk (balStep rpp adjP e b) (i0 + b * rpp) (c + 1))).processed =
        c + (refInner rpp adjP e rem
          (RefState.mk (balStep rpp adjP e b) (0 + b * rpp) (0 + 1))).processed
      rw [ih (balStep rpp adjP e b) (i0 + b * rpp) (c + 1),
        ih (balStep rpp adjP e b) (0 + b * rpp) (0 + 1)]
      omega

theorem refInner_balance_shift (rpp adjP e : ℚ) :
    ∀ rem (b i0 : ℚ) (c : ℕ),
      (refInner rpp adjP e rem (RefState.mk b i0 c)).balance =
        (refInner rpp adjP e rem (RefState.mk b 0 0)).balance := by
  intro rem
  induction rem with
  | zero => intro b i0 c; rfl
  | succ rem ih =>
    intro b i0 c
    rw [refInner_succ, refInner_succ]
    by_cases h0 : b ≤ 0
    · rw [if_pos h0, if_pos h0]
    · rw [if_neg h0, if_neg h0]
      show (refInner rpp adjP e rem
          (RefState.mk (balStep rpp adjP e b) (i0 + b * rpp) (c + 1))).balance =
        (refInner rpp adjP e rem
          (RefState.mk (balStep rpp adjP e b) (0 + b * rpp) (0 + 1))).balance
      rw [ih (balStep rpp adjP e b) (i0 + b * rpp) (c + 1),
        ih (balStep rpp adjP e b) (0 + b * rpp) (0 + 1)]

/-- A year other than the term year never writes the term-end snapshot. -/
theorem innerLoop_snapshot_ne (rpp adjP e : ℚ) (term ppy year : ℕ) (hy : year ≠ term) :
    ∀ rem i (s : PayState),
      (innerLoop rpp adjP e term ppy year rem i s).balanceAtEndOfTerm =
          s.balanceAtEndOfTerm ∧
        (innerLoop rpp adjP e term ppy year rem i s).totalInterestPaidOverTerm =
          s.totalInterestPaidOverTerm := by
  intro rem
  induction rem with
  | zero => exact fun i s => ⟨rfl, rfl⟩
  | succ rem ih =>
    intro i s
    rw [innerLoop_succ]
    split
    · exact ⟨rfl, rfl⟩
    · obtain ⟨ih1, ih2⟩ := ih (i + 1) (payStep rpp adjP e term ppy year i
        { s with lastPaymentNumber := s.lastPaymentNumber + 1 })
      obtain ⟨p1, p2⟩ := payStep_snapshot_of_ne rpp adjP e term ppy year i
        { s with lastPaymentNumber := s.lastPaymentNumber + 1 } (fun hc => hy hc.1)
      exact ⟨by rw [ih1, p1], by rw [ih2, p2]⟩

/-- After the term year has passed, the snapshot fields are frozen. -/
theorem yearLoop_snapshot_after (principal rpp adjP e ap : ℚ) (term ppy : ℕ) :
    ∀ rem year (s : PayState), term < year →
      (yearLoop principal rpp adjP e ap term ppy rem year s).balanceAtEndOfTerm =
          s.balanceAtEndOfTerm ∧
        (yearLoop principal rpp adjP e ap term ppy rem year s).totalInterestPaidOverTerm =
          s.totalInterestPaidOverTerm := by
  intro rem
  induction rem with
  | zero => exact fun year s _ => ⟨rfl, rfl⟩
  | succ rem ih =>
    intro year s hy
    rw [yearLoop_succ]
    simp only
    obtain ⟨i1, i2⟩ := innerLoop_snapshot_ne rpp adjP e term ppy year
      (by omega) ppy 1 (resetYear s)
    obtain ⟨a1, a2⟩ := applyAnnualPrepayment_snapshot principal ap
      (innerLoop rpp adjP e term ppy year ppy 1 (resetYear s))
    have hsnap : (pushYear year (applyAnnualPrepayment principal ap
          (innerLoop rpp adjP e term ppy year ppy 1 (resetYear s)))).balanceAtEndOfTerm =
            s.balanceAtEndOfTerm ∧
        (pushYear year (applyAnnualPrepayment principal ap
          (innerLoop rpp adjP e term ppy year ppy 1 (resetYear s)))).totalInterestPaidOverTerm =
            s.totalInterestPaidOverTerm := by
      constructor
      · show (applyAnnualPrepayment principal ap _).balanceAtEndOfTerm = _
        rw [a1, i1]
        rfl
      · show (applyAnnualPrepayment principal ap _).totalInterestPaidOverTerm = _
        rw [a2, i2]
        rfl
    split
    · exact hsnap
    · obtain ⟨r1, r2⟩ := ih (year + 1)
        (pushYear year (applyAnnualPrepayment principal ap
          (innerLoop rpp adjP e term ppy year ppy 1 (resetYear s)))) (by omega)
      exact ⟨by rw [r1, hsnap.1], by rw [r2, hsnap.2]⟩

/-- If every year the loop can still execute lies strictly before the term
year, the snapshot fields are untouched. -/
theorem yearLoop_snapshot_before (principal rpp adjP e ap : ℚ) (term ppy : ℕ) :
    ∀ rem year (s : PayState), year + rem ≤ term →
      (yearLoop principal rpp adjP e ap term ppy rem year s).balanceAtEndOfTerm =
          s.balanceAtEndOfTerm ∧
        (yearLoop principal rpp adjP e ap term ppy rem year s).totalInterestPaidOverTerm =
          s.totalInterestPaidOverTerm := by
  intro rem
  induction rem with
  | zero => exact fun year s _ => ⟨rfl, rfl⟩
  | succ rem ih =>
    intro year s hy
    rw [yearLoop_succ]
    simp only
    obtain ⟨i1, i2⟩ := innerLoop_snapshot_ne rpp adjP e term ppy year
      (by omega) ppy 1 (resetYear s)
    obtain ⟨a1, a2⟩ := applyAnnualPrepayment_snapshot principal ap
      (innerLoop rpp adjP e term ppy year ppy 1 (resetYear s))
    have hsnap : (pushYear year (applyAnnualPrepayment principal ap
          (innerLoop rpp adjP e term ppy year ppy 1 (resetYear s)))).balanceAtEndOfTerm =
            s.balanceAtEndOfTerm ∧
        (pushYear year (applyAnnualPrepayment principal ap
          (innerLoop rpp adjP e term ppy year ppy 1 (resetYear s)))).totalInterestPaidOverTerm =
            s.totalInterestPaidOverTerm := by
      constructor
      · show (applyAnnualPrepayment principal ap _).balanceAtEndOfTerm = _
        rw [a1, i1]
        rfl
      · show (applyAnnualPrepayment principal ap _).totalInterestPaidOverTerm = _
        rw [a2, i2]
        rfl
    split
    · exact hsnap
    · obtain ⟨r1, r2⟩ := ih (year + 1)
        (pushYear year (applyAnnualPrepayment principal ap
          (innerLoop rpp adjP e term ppy year ppy 1 (resetYear s)))) (by omega)
      exact ⟨by rw [r1, hsnap.1], by rw [r2, hsnap.2]⟩

/-- Within the term year the snapshot is written exactly at the payment with
index `paymentsPerYear`: if all remaining payments are processed (the
reference count is full), the final snapshot equals the final balance and
cumulative interest; if the loop breaks early, the snapshot is untouched. -/
theorem innerLoop_snapshot_term (rpp adjP e : ℚ) (term ppy : ℕ) :
    ∀ rem i (s : PayState), i + rem = ppy + 1 → 1 ≤ rem →
      ((refInner rpp adjP e rem (RefState.mk s.balance 0 0)).processed = rem →
        (innerLoop rpp adjP e term ppy term rem i s).balanceAtEndOfTerm =
            (innerLoop rpp adjP e term ppy term rem i s).balance ∧
          (innerLoop rpp adjP e term ppy term rem i s).totalInterestPaidOverTerm =
            (innerLoop rpp adjP e term ppy term rem i s).totalInterestPaid) ∧
      ((refInner rpp adjP e rem (RefState.mk s.balance 0 0)).processed ≠ rem →
        (innerLoop rpp adjP e term ppy term rem i s).balanceAtEndOfTerm =
            s.balanceAtEndOfTerm ∧
          (innerLoop rpp adjP e term ppy term rem i s).totalInterestPaidOverTerm =
            s.totalInterestPaidOverTerm) := by
  intro rem
  induction rem with
  | zero => intro i s hi h1; omega
  | succ rem ih =>
    intro i s hi _
    rw [innerLoop_succ]
    by_cases h0 : s.balance ≤ 0
    · have hproc : (refInner rpp adjP e (rem + 1) (RefState.mk s.balance 0 0)).processed =
          0 := by
        rw [refInner_succ, if_pos (show (RefState.mk s.balance 0 0).balance ≤ 0 from h0)]
      rw [if_pos h0]
      constructor
      · intro hfull
        rw [hproc] at hfull
        omega
      · intro _
        exact ⟨rfl, rfl⟩
    · have hproc : (refInner rpp adjP e (rem + 1) (RefState.mk s.balance 0 0)).processed =
          1 + (refInner rpp adjP e rem
            (RefState.mk (balStep rpp adjP e s.balance) 0 0)).processed := by
        rw [refInner_succ, if_neg (show ¬(RefState.mk s.balance 0 0).balance ≤ 0 from h0)]
        show (refInner rpp adjP e rem
          (RefState.mk (balStep rpp adjP e s.balance) (0 + s.balance * rpp) (0 + 1))).processed = _
        rw [refInner_processed_shift rpp adjP e rem (balStep rpp adjP e s.balance)
          (0 + s.balance * rpp) (0 + 1)]
      rw [if_neg h0]
      rcases Nat.eq_zero_or_pos rem with hz | hpos
      · subst hz
        have hippy : i = ppy := by omega
        obtain ⟨p1, p2⟩ := payStep_snapshot_of_eq rpp adjP e term ppy term i
          { s with lastPaymentNumber := s.lastPaymentNumber + 1 } ⟨rfl, hippy⟩
        constructor
        · intro _
          rw [innerLoop_zero]
          exact ⟨p1, p2⟩
        · intro hnot
          exfalso
          apply hnot
          rw [hproc, refInner_zero]
          rfl
      · have hippy : i ≠ ppy := by omega
        obtain ⟨p1, p2⟩ := payStep_snapshot_of_ne rpp adjP e term ppy term i
          { s with lastPaymentNumber := s.lastPaymentNumber + 1 } (fun hc => hippy hc.2)
        have hbalpay : (payStep rpp adjP e term ppy term i
            { s with lastPaymentNumber := s.lastPaymentNumber + 1 }).balance =
            balStep rpp adjP e s.balance := payStep_balance rpp adjP e term ppy term i _
        obtain ⟨ihfull, ihnot⟩ := ih (i + 1) (payStep rpp adjP e term ppy term i
          { s with lastPaymentNumber := s.lastPaymentNumber + 1 }) (by omega) hpos
        rw [hbalpay] at ihfull ihnot
        constructor
        · intro hfull
          rw [hproc] at hfull
          exact ihfull (by omega)
        · intro hnot
          rw [hproc] at hnot
          obtain ⟨q1, q2⟩ := ihnot (by omega)
          exact ⟨by rw [q1, p1], by rw [q2, p2]⟩

/-- If every payment up to and including the last payment of the term year is
processed, the snapshot fields of the loop equal the reference balance and
cumulative interest at the moment that payment executes. -/
theorem yearLoop_snapshot_hit (principal rpp adjP e ap : ℚ) (term ppy : ℕ) (hppy : 0 < ppy) :
    ∀ rem year (s : PayState) (t : RefState),
      t.balance = s.balance → t.interest = s.totalInterestPaid →
      1 ≤ year → year ≤ term → term ≤ year - 1 + rem →
      (refInner rpp adjP e ppy
          (refYears principal rpp adjP e ap ppy (term - year) t)).processed =
        t.processed + (term - year + 1) * ppy →
      (yearLoop principal rpp adjP e ap term ppy rem year s).balanceAtEndOfTerm =
          (refInner rpp adjP e ppy
            (refYears principal rpp adjP e ap ppy (term - year) t)).balance ∧
        (yearLoop principal rpp adjP e ap term ppy rem year s).totalInterestPaidOverTerm =
          (refInner rpp adjP e ppy
            (refYears principal rpp adjP e ap ppy (term - year) t)).interest := by
  intro rem
  induction rem with
  | zero => intro year s t _ _ h1 h2 h3 _; omega
  | succ rem ih =>
    intro year s t hb hint h1y hyterm hrange hf
    obtain ⟨cb, ci, _⟩ := innerLoop_ref rpp adjP e term ppy year ppy 1 (resetYear s) t
      (by rw [hb]; rfl) (by rw [hint]; rfl)
    by_cases hyt : year = term
    · rw [hyt] at hf cb ci ⊢
      rw [Nat.sub_self, refYears_zero] at hf ⊢
      have hshift := refInner_processed_shift rpp adjP e ppy t.balance t.interest t.processed
      rw [show (RefState.mk t.balance t.interest t.processed) = t from rfl] at hshift
      have hX : (refInner rpp adjP e ppy (RefState.mk t.balance 0 0)).processed = ppy := by
        omega
      rw [hb] at hX
      obtain ⟨hsn1, hsn2⟩ := ((innerLoop_snapshot_term rpp adjP e term ppy ppy 1
        (resetYear s) (by omega) hppy).1) hX
      rw [yearLoop_succ]
      simp only
      set s1 := innerLoop rpp adjP e term ppy term ppy 1 (resetYear s) with hs1
      obtain ⟨a1, a2⟩ := applyAnnualPrepayment_snapshot principal ap s1
      have hsnap3 : (pushYear term (applyAnnualPrepayment principal ap s1)).balanceAtEndOfTerm =
            (refInner rpp adjP e ppy t).balance ∧
          (pushYear term (applyAnnualPrepayment principal ap s1)).totalInterestPaidOverTerm =
            (refInner rpp adjP e ppy t).interest := by
        constructor
        · show (applyAnnualPrepayment principal ap s1).balanceAtEndOfTerm = _
          rw [a1, hsn1, cb]
        · show (applyAnnualPrepayment principal ap s1).totalInterestPaidOverTerm = _
          rw [a2, hsn2, ci]
      split
      · exact hsnap3
      · obtain ⟨r1, r2⟩ := yearLoop_snapshot_after principal rpp adjP e ap term ppy rem
          (term + 1) (pushYear term (applyAnnualPrepayment principal ap s1)) (by omega)
        exact ⟨by rw [r1, hsnap3.1], by rw [r2, hsnap3.2]⟩
    · have hlt : year < term := lt_of_le_of_ne hyterm hyt
      have hd : term - year = (term - (year + 1)) + 1 := by omega
      rw [hd] at hf ⊢
      rw [refYears_succ] at hf ⊢
      obtain ⟨m, hm⟩ : ∃ m, (term - (year + 1)) * ppy = m := ⟨_, rfl⟩
      have hexp : (term - (year + 1) + 1 + 1) * ppy = m + ppy + ppy := by
        rw [← hm]; ring
      rw [hexp] at hf
      have hbnd1 := refYears_processed_le principal rpp adjP e ap ppy (term - (year + 1))
        (refYear principal rpp adjP e ap ppy t)
      rw [hm] at hbnd1
      have hbnd2 := refInner_processed_le rpp adjP e ppy
        (refYears principal rpp adjP e ap ppy (term - (year + 1))
          (refYear principal rpp adjP e ap ppy t))
      have hbnd3 := refYear_processed_le principal rpp adjP e ap ppy t
      have hbnd4 := refYear_processed_mono principal rpp adjP e ap ppy t
      have hfull1 : (refYear principal rpp adjP e ap ppy t).processed =
          t.processed + ppy := by omega
      rw [yearLoop_succ]
      simp only
      set s1 := innerLoop rpp adjP e term ppy year ppy 1 (resetYear s) with hs1
      have hbal2 : (refYear principal rpp adjP e ap ppy t).balance =
          (pushYear year (applyAnnualPrepayment principal ap s1)).balance := by
        rw [pushYear_balance]
        exact prepay_ref_balance principal ap s1 (refInner rpp adjP e ppy t) cb.symm
      have hint2 : (refYear principal rpp adjP e ap ppy t).interest =
          (pushYear year (applyAnnualPrepayment principal ap s1)).totalInterestPaid := by
        show (refPrepay principal ap (refInner rpp adjP e ppy t)).interest =
          (applyAnnualPrepayment principal ap s1).totalInterestPaid
        rw [refPrepay_interest, applyAnnualPrepayment_totalInterestPaid]
        exact ci.symm
      split
      · rename_i hstop
        exfalso
        have hbneg : (refYear principal rpp adjP e ap ppy t).balance ≤ 0 := by
          rw [hbal2]
          exact hstop
        rw [refYears_stationary principal rpp adjP e ap ppy (term - (year + 1)) _ hbneg,
          refInner_stationary rpp adjP e ppy _ hbneg] at hf
        omega
      · rename_i hstop
        have hf2 : (refInner rpp adjP e ppy
            (refYears principal rpp adjP e ap ppy (term - (year + 1))
              (refYear principal rpp adjP e ap ppy t))).processed =
            (refYear principal rpp adjP e ap ppy t).processed +
              (term - (year + 1) + 1) * ppy := by
          have hgoal : (term - (year + 1) + 1) * ppy = m + ppy := by
            rw [← hm]; ring
          rw [hgoal]
          omega
        obtain ⟨r1, r2⟩ := ih (year + 1)
          (pushYear year (applyAnnualPrepayment principal ap s1))
          (refYear principal rpp adjP e ap ppy t) hbal2 hint2 (by omega) (by omega)
          (by omega) hf2
        exact ⟨r1, r2⟩

/-- If the balance is exhausted before the last payment of the term year can
execute, the snapshot fields of the loop are never written. -/
theorem yearLoop_snapshot_miss (principal rpp adjP e ap : ℚ) (term ppy : ℕ) (hppy : 0 < ppy) :
    ∀ rem year (s : PayState) (t : RefState),
      t.balance = s.balance → t.interest = s.totalInterestPaid →
      1 ≤ year → year ≤ term →
      (refInner rpp adjP e ppy
          (refYears principal rpp adjP e ap ppy (term - year) t)).processed <
        t.processed + (term - year + 1) * ppy →
      (yearLoop principal rpp adjP e ap term ppy rem year s).balanceAtEndOfTerm =
          s.balanceAtEndOfTerm ∧
        (yearLoop principal rpp adjP e ap term ppy rem year s).totalInterestPaidOverTerm =
          s.totalInterestPaidOverTerm := by
  intro rem
  induction rem with
  | zero => intro year s t _ _ _ _ _; exact ⟨rfl, rfl⟩
  | succ rem ih =>
    intro year s t hb hint h1y hyterm hf
    obtain ⟨cb, ci, _⟩ := innerLoop_ref rpp adjP e term ppy year ppy 1 (resetYear s) t
      (by rw [hb]; rfl) (by rw [hint]; rfl)
    by_cases hyt : year = term
    · rw [hyt] at hf cb ci ⊢
      rw [Nat.sub_self, refYears_zero] at hf
      have hshift := refInner_processed_shift rpp adjP e ppy t.balance t.interest t.processed
      rw [show (RefState.mk t.balance t.interest t.processed) = t from rfl] at hshift
      have hXne : (refInner rpp adjP e ppy (RefState.mk t.balance 0 0)).processed ≠ ppy := by
        omega
      have hXlt : (refInner rpp adjP e ppy (RefState.mk t.balance 0 0)).processed <
          (RefState.mk t.balance 0 0).processed + ppy := by
        have hle := refInner_processed_le rpp adjP e ppy (RefState.mk t.balance 0 0)
        have h00 : (RefState.mk t.balance 0 0).processed = 0 := rfl
        omega
      have hbneg0 : (refInner rpp adjP e ppy (RefState.mk t.balance 0 0)).balance ≤ 0 :=
        refInner_partial_balance rpp adjP e ppy (RefState.mk t.balance 0 0) hXlt
      have hbsh := refInner_balance_shift rpp adjP e ppy t.balance t.interest t.processed
      rw [show (RefState.mk t.balance t.interest t.processed) = t from rfl] at hbsh
      rw [hb] at hXne
      obtain ⟨hsn1, hsn2⟩ := (innerLoop_snapshot_term rpp adjP e term ppy ppy 1
        (resetYear s) (by omega) hppy).2 hXne
      rw [yearLoop_succ]
      simp only
      set s1 := innerLoop rpp adjP e term ppy term ppy 1 (resetYear s) with hs1
      have hs1neg : s1.balance ≤ 0 := by
        rw [cb, hbsh]
        exact hbneg0
      have hs3bal : (pushYear term (applyAnnualPrepayment principal ap s1)).balance =
          s1.balance := by
        rw [pushYear_balance, applyAnnualPrepayment_balance_nonpos principal ap s1 hs1neg]
      rw [if_pos (by rw [hs3bal]; exact hs1neg)]
      obtain ⟨a1, a2⟩ := applyAnnualPrepayment_snapshot principal ap s1
      constructor
      · show (applyAnnualPrepayment principal ap s1).balanceAtEndOfTerm = _
        rw [a1, hsn1]
        rfl
      · show (applyAnnualPrepayment principal ap s1).totalInterestPaidOverTerm = _
        rw [a2, hsn2]
        rfl
    · have hlt : year < term := lt_of_le_of_ne hyterm hyt
      have hd : term - year = (term - (year + 1)) + 1 := by omega
      rw [hd] at hf
      rw [refYears_succ] at hf
      obtain ⟨m, hm⟩ : ∃ m, (term - (year + 1)) * ppy = m := ⟨_, rfl⟩
      have hexp : (term - (year + 1) + 1 + 1) * ppy = m + ppy + ppy := by
        rw [← hm]; ring
      rw [hexp] at hf
      rw [yearLoop_succ]
      simp only
      set s1 := innerLoop rpp adjP e term ppy year ppy 1 (resetYear s) with hs1
      obtain ⟨i1, i2⟩ := innerLoop_snapshot_ne rpp adjP e term ppy year hyt ppy 1 (resetYear s)
      obtain ⟨a1, a2⟩ := applyAnnualPrepayment_snapshot principal ap s1
      have hsnap3 : (pushYear year (applyAnnualPrepayment principal ap s1)).balanceAtEndOfTerm =
            s.balanceAtEndOfTerm ∧
          (pushYear year (applyAnnualPrepayment principal ap s1)).totalInterestPaidOverTerm =
            s.totalInterestPaidOverTerm := by
        constructor
        · show (applyAnnualPrepayment principal ap s1).balanceAtEndOfTerm = _
          rw [a1, i1]
          rfl
        · show (applyAnnualPrepayment principal ap s1).totalInterestPaidOverTerm = _
          rw [a2, i2]
          rfl
      split
      · exact hsnap3
      · rename_i hstop
        have hfull1 : (refYear principal rpp adjP e ap ppy t).processed =
            t.processed + ppy := by
          by_contra hne
          have heqp : (refYear principal rpp adjP e ap ppy t).processed =
              (refInner rpp adjP e ppy t).processed := refPrepay_processed principal ap _
          have hle := refInner_processed_le rpp adjP e ppy t
          have hlt2 : (refInner rpp adjP e ppy t).processed < t.processed + ppy := by omega
          have hbneg : (refInner rpp adjP e ppy t).balance ≤ 0 :=
            refInner_partial_balance rpp adjP e ppy t hlt2
          have hs1neg : s1.balance ≤ 0 := by rw [cb]; exact hbneg
          apply hstop
          rw [pushYear_balance, applyAnnualPrepayment_balance_nonpos principal ap s1 hs1neg]
          exact hs1neg
        have hbal2 : (refYear principal rpp adjP e ap ppy t).balance =
            (pushYear year (applyAnnualPrepayment principal ap s1)).balance := by
          rw [pushYear_balance]
          exact prepay_ref_balance principal ap s1 (refInner rpp adjP e ppy t) cb.symm
        have hint2 : (refYear principal rpp adjP e ap ppy t).interest =
            (pushYear year (applyAnnualPrepayment principal ap s1)).totalInterestPaid := by
          show (refPrepay principal ap (refInner rpp adjP e ppy t)).interest =
            (applyAnnualPrepayment principal ap s1).totalInterestPaid
          rw [refPrepay_interest, applyAnnualPrepayment_totalInterestPaid]
          exact ci.symm
        have hf2 : (refInner rpp adjP e ppy
            (refYears principal rpp adjP e ap ppy (term - (year + 1))
              (refYear principal rpp adjP e ap ppy t))).processed <
            (refYear principal rpp adjP e ap ppy t).processed +
              (term - (year + 1) + 1) * ppy := by
          have hgoal : (term - (year + 1) + 1) * ppy = m + ppy := by
            rw [← hm]; ring
          rw [hgoal]
          omega
        obtain ⟨r1, r2⟩ := ih (year + 1)
          (pushYear year (applyAnnualPrepayment principal ap s1))
          (refYear principal rpp adjP e ap ppy t) hbal2 hint2 (by omega) (by omega) hf2
        exact ⟨by rw [r1, hsnap3.1], by rw [r2, hsnap3.2]⟩

/-- C5: `balanceAtEndOfTerm` and `totalInterestTerm` are snapshotted exactly
when the last payment of year `term` executes (year = term, payment index =
`paymentsPerYear`): if all `term * paymentsPerYear` payments up to that point
are processed, the fields hold the balance and cumulative interest of that
moment; if the balance is exhausted earlier (or the term year is never
reached), the fields keep their initialized value 0. -/
theorem C5_term_snapshot (s : Scenario) (hterm : 1 ≤ s.term) :
    (s.term * paymentsPerYear s.paymentFrequency ≤ processedPayments s →
      (calculateMortgage s).balanceAtEndOfTerm = (termMomentState s).balance ∧
        (calculateMortgage s).totalInterestTerm = (termMomentState s).interest) ∧
    (processedPayments s < s.term * paymentsPerYear s.paymentFrequency →
      (calculateMortgage s).balanceAtEndOfTerm = 0 ∧
        (calculateMortgage s).totalInterestTerm = 0) := by
  have hppy : 0 < paymentsPerYear s.paymentFrequency := paymentsPerYear_pos _
  have hsub : s.term - 1 + 1 = s.term := by omega
  have hinitp : (RefState.mk (mortgageAmount s) 0 0).processed = 0 := rfl
  -- the truncated processed count, as the processed count of `termMomentState`
  have hTle : (termMomentState s).processed ≤ s.term * paymentsPerYear s.paymentFrequency := by
    have h1 : (termMomentState s).processed ≤
        (refYears (mortgageAmount s) (scenarioRatePerPayment s) (scenarioAdjustedPayment s)
          s.extraPayment s.annualPrepayment (paymentsPerYear s.paymentFrequency)
          (s.term - 1) (RefState.mk (mortgageAmount s) 0 0)).processed +
          paymentsPerYear s.paymentFrequency :=
      refInner_processed_le _ _ _ _ _
    have h2 := refYears_processed_le (mortgageAmount s) (scenarioRatePerPayment s)
      (scenarioAdjustedPayment s) s.extraPayment s.annualPrepayment
      (paymentsPerYear s.paymentFrequency) (s.term - 1) (RefState.mk (mortgageAmount s) 0 0)
    rw [hinitp] at h2
    have h3 : (s.term - 1) * paymentsPerYear s.paymentFrequency +
        paymentsPerYear s.paymentFrequency = s.term * paymentsPerYear s.paymentFrequency := by
      calc (s.term - 1) * paymentsPerYear s.paymentFrequency +
            paymentsPerYear s.paymentFrequency
          = (s.term - 1 + 1) * paymentsPerYear s.paymentFrequency := by ring
        _ = s.term * paymentsPerYear s.paymentFrequency := by rw [hsub]
    omega
  have hdecomp : refYears (mortgageAmount s) (scenarioRatePerPayment s)
      (scenarioAdjustedPayment s) s.extraPayment s.annualPrepayment
      (paymentsPerYear s.paymentFrequency) s.term (RefState.mk (mortgageAmount s) 0 0) =
      refYear (mortgageAmount s) (scenarioRatePerPayment s) (scenarioAdjustedPayment s)
        s.extraPayment s.annualPrepayment (paymentsPerYear s.paymentFrequency)
        (refYears (mortgageAmount s) (scenarioRatePerPayment s) (scenarioAdjustedPayment s)
          s.extraPayment s.annualPrepayment (paymentsPerYear s.paymentFrequency)
          (s.term - 1) (RefState.mk (mortgageAmount s) 0 0)) := by
    conv_lhs => rw [show s.term = s.term - 1 + 1 from hsub.symm]
    exact refYears_succ_last _ _ _ _ _ _ _ _
  have hprocT : (refYears (mortgageAmount s) (scenarioRatePerPayment s)
      (scenarioAdjustedPayment s) s.extraPayment s.annualPrepayment
      (paymentsPerYear s.paymentFrequency) s.term
      (RefState.mk (mortgageAmount s) 0 0)).processed = (termMomentState s).processed := by
    rw [hdecomp]
    exact refPrepay_processed _ _ _
  constructor
  · -- the term's last payment is executed
    intro hpos
    have hperiod : s.term ≤ s.amortizationPeriod := by
      have hb := refYears_processed_le (mortgageAmount s) (scenarioRatePerPayment s)
        (scenarioAdjustedPayment s) s.extraPayment s.annualPrepayment
        (paymentsPerYear s.paymentFrequency) s.amortizationPeriod
        (RefState.mk (mortgageAmount s) 0 0)
      rw [hinitp] at hb
      have hb1 : processedPayments s ≤
          s.amortizationPeriod * paymentsPerYear s.paymentFrequency :=
        le_trans (le_of_eq rfl) (le_trans hb (le_of_eq (Nat.zero_add _)))
      have hb2 : s.term * paymentsPerYear s.paymentFrequency ≤
          s.amortizationPeriod * paymentsPerYear s.paymentFrequency := le_trans hpos hb1
      exact Nat.le_of_mul_le_mul_right hb2 hppy
    have hTfull : (termMomentState s).processed =
        s.term * paymentsPerYear s.paymentFrequency := by
      rcases Nat.lt_or_ge (termMomentState s).processed
        (s.term * paymentsPerYear s.paymentFrequency) with hlt | hge
      · exfalso
        have hybal : (refYears (mortgageAmount s) (scenarioRatePerPayment s)
            (scenarioAdjustedPayment s) s.extraPayment s.annualPrepayment
            (paymentsPerYear s.paymentFrequency) s.term
            (RefState.mk (mortgageAmount s) 0 0)).balance ≤ 0 := by
          apply refYears_partial_balance
          rw [hinitp, hprocT]
          omega
        have hglob : processedPayments s = (termMomentState s).processed := by
          show (refYears (mortgageAmount s) (scenarioRatePerPayment s)
            (scenarioAdjustedPayment s) s.extraPayment s.annualPrepayment
            (paymentsPerYear s.paymentFrequency) s.amortizationPeriod
            (RefState.mk (mortgageAmount s) 0 0)).processed = _
          conv_lhs => rw [show s.amortizationPeriod =
            s.term + (s.amortizationPeriod - s.term) from by omega]
          rw [refYears_add, refYears_stationary _ _ _ _ _ _ _ _ hybal]
          exact hprocT
        rw [hglob] at hpos
        omega
      · omega
    have hhit := yearLoop_snapshot_hit (mortgageAmount s) (scenarioRatePerPayment s)
      (scenarioAdjustedPayment s) s.extraPayment s.annualPrepayment s.term
      (paymentsPerYear s.paymentFrequency) hppy s.amortizationPeriod 1
      (initState (mortgageAmount s)) (RefState.mk (mortgageAmount s) 0 0)
      rfl rfl le_rfl hterm (by omega) ?hf
    case hf =>
      show (termMomentState s).processed = 0 + (s.term - 1 + 1) * paymentsPerYear s.paymentFrequency
      rw [hsub, Nat.zero_add]
      exact hTfull
    rw [calculateMortgage_balanceAtEndOfTerm, calculateMortgage_totalInterestTerm]
    exact hhit
  · -- the term's last payment never executes
    intro hneg
    rw [calculateMortgage_balanceAtEndOfTerm, calculateMortgage_totalInterestTerm]
    rcases Nat.lt_or_ge s.amortizationPeriod s.term with hcase | hcase
    · have hmiss := yearLoop_snapshot_before (mortgageAmount s) (scenarioRatePerPayment s)
        (scenarioAdjustedPayment s) s.extraPayment s.annualPrepayment s.term
        (paymentsPerYear s.paymentFrequency) s.amortizationPeriod 1
        (initState (mortgageAmount s)) (by omega)
      exact hmiss
    · have hTlt : (termMomentState s).processed <
          s.term * paymentsPerYear s.paymentFrequency := by
        have hmono : (refYears (mortgageAmount s) (scenarioRatePerPayment s)
            (scenarioAdjustedPayment s) s.extraPayment s.annualPrepayment
            (paymentsPerYear s.paymentFrequency) s.term
            (RefState.mk (mortgageAmount s) 0 0)).processed ≤ processedPayments s := by
          show _ ≤ (refYears (mortgageAmount s) (scenarioRatePerPayment s)
            (scenarioAdjustedPayment s) s.extraPayment s.annualPrepayment
            (paymentsPerYear s.paymentFrequency) s.amortizationPeriod
            (RefState.mk (mortgageAmount s) 0 0)).processed
          conv_rhs => rw [show s.amortizationPeriod =
            s.term + (s.amortizationPeriod - s.term) from by omega]
          rw [refYears_add]
          exact refYears_processed_mono _ _ _ _ _ _ _ _
        rw [hprocT] at hmono
        omega
      have hmiss := yearLoop_snapshot_miss (mortgageAmount s) (scenarioRatePerPayment s)
        (scenarioAdjustedPayment s) s.extraPayment s.annualPrepayment s.term
        (paymentsPerYear s.paymentFrequency) hppy s.amortizationPeriod 1
        (initState (mortgageAmount s)) (RefState.mk (mortgageAmount s) 0 0)
        rfl rfl le_rfl hterm ?hn
      case hn =>
        show (termMomentState s).processed < 0 + (s.term - 1 + 1) * paymentsPerYear s.paymentFrequency
        rw [hsub, Nat.zero_add]
        exact hTlt
      exact hmiss

/-- Witness scenario for C5: a 2-year zero-rate monthly mortgage with a 1-year
term; the snapshot is taken at payment 12 with balance 600 and no interest. -/
def exW5 : Scenario :=
  { purchasePrice := 1200, downPayment := 0, downPaymentType := "amount"
    interestRate := 0, amortizationPeriod := 2, term := 1
    paymentFrequency := "monthly"
    extraPayment := 0, paymentIncrease := 0, annualPrepayment := 0 }

/-- C5 witness: the positive branch of the snapshot characterization at a
concrete scenario. -/
theorem C5_term_snapshot_witness :
    1 ≤ exW5.term ∧
      exW5.term * paymentsPerYear exW5.paymentFrequency ≤ processedPayments exW5 ∧
      ((calculateMortgage exW5).balanceAtEndOfTerm = (termMomentState exW5).balance ∧
        (calculateMortgage exW5).totalInterestTerm = (termMomentState exW5).interest) :=
  ⟨by decide, by with_unfolding_all decide,
    (C5_term_snapshot exW5 (by decide)).1 (by with_unfolding_all decide)⟩

/-- Witness scenario for C7. -/
def exW7 : Scenario :=
  { purchasePrice := 1200, downPayment := 0, downPaymentType := "amount"
    interestRate := 0, amortizationPeriod := 1, term := 1
    paymentFrequency := "monthly"
    extraPayment := 0, paymentIncrease := 0, annualPrepayment := 0 }

/-- C7 witness: the monotonicity at a concrete scenario with extra payments 0
and 100. -/
theorem C7_extra_payment_monotone_witness :
    WellFormed exW7 ∧ exW7.extraPayment ≤ 100 ∧
      ((calculateMortgage { exW7 with extraPayment := 100 }).totalInterestLifetime ≤
          (calculateMortgage exW7).totalInterestLifetime ∧
        (calculateMortgage { exW7 with extraPayment := 100 }).effectiveAmortization ≤
          (calculateMortgage exW7).effectiveAmortization) :=
  ⟨by with_unfolding_all decide, by with_unfolding_all decide,
    C7_extra_payment_monotone exW7 100 (by with_unfolding_all decide)
      (by with_unfolding_all decide)⟩

/-- C6 witness: the amended zero-rate properties at a concrete monthly
scenario. -/
theorem C6_zero_rate_witness :
    exC6w.interestRate = 0 ∧ exC6w.paymentFrequency = "monthly" ∧
      1 ≤ exC6w.amortizationPeriod ∧
      ((calculateMortgage exC6w).totalInterestLifetime = 0 ∧
        paymentAmount exC6w * (totalPayments exC6w : ℚ) =
          (calculateMortgage exC6w).totalMortgage ∧
        (calculateMortgage exC6w).monthlyPayment * 12 * (exC6w.amortizationPeriod : ℚ) =
          (calculateMortgage exC6w).totalMortgage) :=
  ⟨rfl, rfl, by decide, C6_zero_rate exC6w rfl (Or.inl rfl) (by decide)⟩

end MortgageCalc
